import Mathlib

/-!
Verification of the curated-event recurrence expander of
`fetch_events.py` ("The Breathing of Downtown" data scripts).

The Python code manipulates `datetime.date` values.  We embed the
proleptic Gregorian calendar exactly as CPython's `datetime` module
computes it: `isLeap`, `daysInMonth`, days-before tables, `toordinal`
and `weekday()` (Monday = 0, Friday = 4, Saturday = 5).  Years are kept
as `Int` at the API boundary (Python ints) and stored as `Nat` inside a
constructed `Date`, which is only ever produced through `mkDate`, the
embedding of the fallible `date(year, month, day)` constructor
(CPython accepts `1 <= year <= 9999`).
-/

namespace FetchEvents

/-- Gregorian leap-year rule, as used by `datetime.date`. -/
def isLeap (y : Nat) : Bool := y % 4 == 0 && (y % 100 != 0 || y % 400 == 0)

/-- Length of month `m` (1–12) of year `y`, as in `datetime._days_in_month`. -/
def daysInMonth (y m : Nat) : Nat :=
  if m = 2 then (if isLeap y then 29 else 28)
  else if m = 4 ∨ m = 6 ∨ m = 9 ∨ m = 11 then 30
  else 31

/-- Days in the months strictly before month `m` of year `y`
(`datetime._days_before_month`). -/
def daysBeforeMonth (y : Nat) : Nat → Nat
  | 0 => 0
  | 1 => 0
  | m + 2 => daysBeforeMonth y (m + 1) + daysInMonth y (m + 1)

/-- Number of days in year `y`. -/
def daysInYear (y : Nat) : Nat := if isLeap y then 366 else 365

/-- Days strictly before January 1 of year `y`
(`datetime._days_before_year`). -/
def daysBeforeYear (y : Nat) : Nat :=
  365 * (y - 1) + (y - 1) / 4 - (y - 1) / 100 + (y - 1) / 400

/-- A calendar date as carried by a Python `datetime.date` object. -/
structure Date where
  year : Nat
  month : Nat
  day : Nat
  deriving DecidableEq, Repr

/-- The invariant `date.__new__` enforces (else it raises `ValueError`). -/
def Date.valid (d : Date) : Prop :=
  1 ≤ d.year ∧ d.year ≤ 9999 ∧ 1 ≤ d.month ∧ d.month ≤ 12 ∧
    1 ≤ d.day ∧ d.day ≤ daysInMonth d.year d.month

instance (d : Date) : Decidable d.valid := by unfold Date.valid; infer_instance

/-- The acceptance condition of `date(year, month, day)`. -/
def isValidYMD (year : Int) (month day : Nat) : Prop :=
  1 ≤ year ∧ year ≤ 9999 ∧ 1 ≤ month ∧ month ≤ 12 ∧
    1 ≤ day ∧ day ≤ daysInMonth year.toNat month

instance (y : Int) (m d : Nat) : Decidable (isValidYMD y m d) := by
  unfold isValidYMD; infer_instance

/-- The fallible constructor `date(year, month, day)`: `none` models the
`ValueError` raised on an invalid combination or out-of-range year. -/
def mkDate (year : Int) (month day : Nat) : Option Date :=
  if isValidYMD year month day then some ⟨year.toNat, month, day⟩ else none

/-- `date.toordinal()`: day 1 is January 1 of year 1. -/
def Date.toOrdinal (d : Date) : Nat :=
  daysBeforeYear d.year + daysBeforeMonth d.year d.month + d.day

/-- `date.weekday()`: Monday is 0, …, Sunday is 6. -/
def Date.weekday (d : Date) : Nat := (d.toOrdinal + 6) % 7

/-- Python's `<=` on `date` values: lexicographic on (year, month, day). -/
def Date.le (a b : Date) : Bool :=
  a.year < b.year ||
    (a.year == b.year &&
      (a.month < b.month || (a.month == b.month && a.day ≤ b.day)))

/-- Python's `<` on `date` values. -/
def Date.lt (a b : Date) : Bool :=
  a.year < b.year ||
    (a.year == b.year &&
      (a.month < b.month || (a.month == b.month && a.day < b.day)))

/-- The calendar successor of `d`: the value `d + timedelta(days=1)`
computes before CPython's range check (month/year rollover on the
(year, month, day) triple).  `Date.addOneDay` below adds the check. -/
def Date.succ (d : Date) : Date :=
  if d.day < daysInMonth d.year d.month then ⟨d.year, d.month, d.day + 1⟩
  else if d.month < 12 then ⟨d.year, d.month + 1, 1⟩
  else ⟨d.year + 1, 1, 1⟩

/-- `d + timedelta(days=1)` as the program executes it: CPython raises
`OverflowError` (modelled as `none`) when the sum would pass
`date.max` = 9999-12-31, and otherwise returns the next day. -/
def Date.addOneDay (d : Date) : Option Date :=
  if d = ⟨9999, 12, 31⟩ then none else some d.succ

/-! Basic order facts about `Date.le` / `Date.lt`. -/

theorem Date.le_refl (a : Date) : a.le a = true := by
  simp [Date.le]

theorem Date.le_trans {a b c : Date} (h₁ : a.le b = true) (h₂ : b.le c = true) :
    a.le c = true := by
  simp only [Date.le, Bool.or_eq_true, Bool.and_eq_true, decide_eq_true_eq,
    beq_iff_eq] at h₁ h₂ ⊢
  omega

theorem Date.lt_trans {a b c : Date} (h₁ : a.lt b = true) (h₂ : b.lt c = true) :
    a.lt c = true := by
  simp only [Date.lt, Bool.or_eq_true, Bool.and_eq_true, decide_eq_true_eq,
    beq_iff_eq] at h₁ h₂ ⊢
  omega

theorem Date.lt_of_lt_of_le {a b c : Date} (h₁ : a.lt b = true)
    (h₂ : b.le c = true) : a.lt c = true := by
  simp only [Date.lt, Date.le, Bool.or_eq_true, Bool.and_eq_true,
    decide_eq_true_eq, beq_iff_eq] at h₁ h₂ ⊢
  omega

theorem Date.le_of_lt {a b : Date} (h : a.lt b = true) : a.le b = true := by
  simp only [Date.lt, Date.le, Bool.or_eq_true, Bool.and_eq_true,
    decide_eq_true_eq, beq_iff_eq] at h ⊢
  omega

theorem Date.le_antisymm {a b : Date} (h₁ : a.le b = true)
    (h₂ : b.le a = true) : a = b := by
  simp only [Date.le, Bool.or_eq_true, Bool.and_eq_true, decide_eq_true_eq,
    beq_iff_eq] at h₁ h₂
  have hy : a.year = b.year := by omega
  have hm : a.month = b.month := by omega
  have hd : a.day = b.day := by omega
  cases a; cases b; simp_all

theorem Date.lt_or_le (a b : Date) : a.lt b = true ∨ b.le a = true := by
  simp only [Date.lt, Date.le, Bool.or_eq_true, Bool.and_eq_true,
    decide_eq_true_eq, beq_iff_eq]
  omega

theorem Date.not_le_of_lt {a b : Date} (h : a.lt b = true) :
    b.le a = false := by
  rw [Bool.eq_false_iff]
  intro hle
  simp only [Date.lt, Date.le, Bool.or_eq_true, Bool.and_eq_true,
    decide_eq_true_eq, beq_iff_eq] at h hle
  omega

theorem Date.lt_succ (d : Date) : d.lt d.succ = true := by
  unfold Date.succ
  split
  · simp [Date.lt]
  · split <;> simp [Date.lt]

/-! Ordinal arithmetic: the calendar lemmas underlying the range walk. -/

theorem daysBeforeMonth_succ (y m : Nat) (hm : 1 ≤ m) :
    daysBeforeMonth y (m + 1) = daysBeforeMonth y m + daysInMonth y m := by
  match m, hm with
  | m + 1, _ => rfl

theorem daysBeforeMonth_le_succ (y m : Nat) :
    daysBeforeMonth y m ≤ daysBeforeMonth y (m + 1) := by
  match m with
  | 0 => exact Nat.le_refl 0
  | m + 1 =>
    rw [daysBeforeMonth_succ y (m + 1) (by omega)]
    omega

theorem daysBeforeMonth_mono (y : Nat) {m m' : Nat} (h : m ≤ m') :
    daysBeforeMonth y m ≤ daysBeforeMonth y m' :=
  monotone_nat_of_le_succ (daysBeforeMonth_le_succ y) h

theorem daysInMonth_pos (y m : Nat) : 1 ≤ daysInMonth y m := by
  unfold daysInMonth
  split
  · split <;> omega
  · split <;> omega

theorem daysInMonth_ge_28 (y m : Nat) : 28 ≤ daysInMonth y m := by
  unfold daysInMonth
  split
  · split <;> omega
  · split <;> omega

theorem daysBeforeMonth_13 (y : Nat) : daysBeforeMonth y 13 = daysInYear y := by
  simp only [daysBeforeMonth, daysInMonth, daysInYear]
  norm_num
  split <;> omega

theorem daysBeforeYear_succ (y : Nat) (hy : 1 ≤ y) :
    daysBeforeYear (y + 1) = daysBeforeYear y + daysInYear y := by
  unfold daysBeforeYear daysInYear
  simp only [Nat.add_sub_cancel]
  have hy1 : y - 1 + 1 = y := by omega
  have h4 := Nat.succ_div (y - 1) 4
  have h100 := Nat.succ_div (y - 1) 100
  have h400 := Nat.succ_div (y - 1) 400
  rw [hy1] at h4 h100 h400
  have hda : (y - 1) / 100 ≤ (y - 1) / 4 :=
    Nat.div_le_div_left (by norm_num) (by norm_num)
  have hdb : y / 100 ≤ y / 4 :=
    Nat.div_le_div_left (by norm_num) (by norm_num)
  rcases em ((400:Nat) ∣ y) with h400d | h400d <;>
    rcases em ((100:Nat) ∣ y) with h100d | h100d <;>
      rcases em ((4:Nat) ∣ y) with h4d | h4d
  · -- divisible by 400, 100, 4: leap
    have m4 : y % 4 = 0 := by omega
    have m400 : y % 400 = 0 := by omega
    have hL : isLeap y = true := by simp [isLeap, m4, m400]
    rw [if_pos h4d] at h4; rw [if_pos h100d] at h100; rw [if_pos h400d] at h400
    rw [hL]
    simp only [if_pos]
    omega
  · exact absurd (dvd_trans (by norm_num : (4:Nat) ∣ 100) h100d) h4d
  · exact absurd (dvd_trans (by norm_num : (100:Nat) ∣ 400) h400d) h100d
  · exact absurd (dvd_trans (by norm_num : (100:Nat) ∣ 400) h400d) h100d
  · -- divisible by 100 and 4 but not 400: not leap
    have m4 : y % 4 = 0 := by omega
    have m100 : y % 100 = 0 := by omega
    have m400 : y % 400 ≠ 0 := by omega
    have hL : isLeap y = false := by simp [isLeap, m4, m100, m400]
    rw [if_pos h100d] at h100; rw [if_pos h4d] at h4
    rw [if_neg h400d] at h400
    rw [hL]
    simp only [Bool.false_eq_true, if_neg, not_false_iff]
    omega
  · exact absurd (dvd_trans (by norm_num : (4:Nat) ∣ 100) h100d) h4d
  · -- divisible by 4, not by 100: leap
    have m4 : y % 4 = 0 := by omega
    have m100 : y % 100 ≠ 0 := by omega
    have hL : isLeap y = true := by simp [isLeap, m4, m100]
    rw [if_pos h4d] at h4
    rw [if_neg h100d] at h100; rw [if_neg h400d] at h400
    rw [hL]
    simp only [if_pos]
    omega
  · -- not divisible by 4: not leap
    have m4 : y % 4 ≠ 0 := by omega
    have hL : isLeap y = false := by simp [isLeap, m4]
    rw [if_neg h4d] at h4; rw [if_neg h100d] at h100
    rw [if_neg h400d] at h400
    rw [hL]
    simp only [Bool.false_eq_true, if_neg, not_false_iff]
    omega

theorem daysBeforeYear_le_succ (y : Nat) :
    daysBeforeYear y ≤ daysBeforeYear (y + 1) := by
  rcases Nat.eq_zero_or_pos y with h | h
  · subst h; decide
  · rw [daysBeforeYear_succ y h]; omega

theorem daysBeforeYear_mono {y y' : Nat} (h : y ≤ y') :
    daysBeforeYear y ≤ daysBeforeYear y' :=
  monotone_nat_of_le_succ daysBeforeYear_le_succ h

/-- Ordinal of a valid date is at most the ordinal just before its next year. -/
theorem toOrdinal_le_year_end {d : Date} (hd : d.valid) :
    d.toOrdinal ≤ daysBeforeYear (d.year + 1) := by
  obtain ⟨h1, h2, h3, h4, h5, h6⟩ := hd
  rw [daysBeforeYear_succ d.year h1]
  unfold Date.toOrdinal
  have hm := daysBeforeMonth_succ d.year d.month h3
  have hmono := daysBeforeMonth_mono d.year (show d.month + 1 ≤ 13 by omega)
  rw [daysBeforeMonth_13] at hmono
  omega

theorem year_start_le_toOrdinal (d : Date) :
    daysBeforeYear d.year + daysBeforeMonth d.year d.month + d.day = d.toOrdinal := rfl

/-- Strict monotonicity of `toordinal` on valid dates. -/
theorem toOrdinal_lt_of_lt {a b : Date} (ha : a.valid) (hb : b.valid)
    (h : a.lt b = true) : a.toOrdinal < b.toOrdinal := by
  simp only [Date.lt, Bool.or_eq_true, Bool.and_eq_true, decide_eq_true_eq,
    beq_iff_eq] at h
  obtain ⟨a1, a2, a3, a4, a5, a6⟩ := ha
  obtain ⟨b1, b2, b3, b4, b5, b6⟩ := hb
  rcases h with hy | ⟨hy, h⟩
  · have h1 : a.toOrdinal ≤ daysBeforeYear (a.year + 1) :=
      toOrdinal_le_year_end ⟨a1, a2, a3, a4, a5, a6⟩
    have h2 : daysBeforeYear (a.year + 1) ≤ daysBeforeYear b.year :=
      daysBeforeYear_mono (by omega)
    have h3 : daysBeforeYear b.year < b.toOrdinal := by
      unfold Date.toOrdinal; omega
    omega
  · rcases h with hm | ⟨hm, hd⟩
    · unfold Date.toOrdinal
      rw [hy]
      have h1 : daysBeforeMonth b.year a.month + a.day ≤
          daysBeforeMonth b.year (a.month + 1) := by
        rw [daysBeforeMonth_succ b.year a.month a3]
        rw [hy] at a6
        omega
      have h2 : daysBeforeMonth b.year (a.month + 1) ≤
          daysBeforeMonth b.year b.month :=
        daysBeforeMonth_mono b.year (by omega)
      omega
    · unfold Date.toOrdinal
      rw [hy, hm]
      omega

theorem toOrdinal_le_of_le {a b : Date} (ha : a.valid) (hb : b.valid)
    (h : a.le b = true) : a.toOrdinal ≤ b.toOrdinal := by
  rcases em (a = b) with rfl | hne
  · exact Nat.le_refl _
  · have hlt : a.lt b = true := by
      simp only [Date.le, Bool.or_eq_true, Bool.and_eq_true, decide_eq_true_eq,
        beq_iff_eq] at h
      simp only [Date.lt, Bool.or_eq_true, Bool.and_eq_true, decide_eq_true_eq,
        beq_iff_eq]
      rcases h with h | ⟨hy, h⟩
      · omega
      · rcases h with h | ⟨hm, hd⟩
        · omega
        · have : a.day ≠ b.day ∨ a.day = b.day := by omega
          rcases this with h' | h'
          · omega
          · exfalso; apply hne; cases a; cases b; simp_all
    exact Nat.le_of_lt (toOrdinal_lt_of_lt ha hb hlt)

theorem le_of_toOrdinal_le {a b : Date} (ha : a.valid) (hb : b.valid)
    (h : a.toOrdinal ≤ b.toOrdinal) : a.le b = true := by
  rcases Date.lt_or_le a b with hlt | hle
  · exact Date.le_of_lt hlt
  · rcases em (b = a) with rfl | hne
    · exact Date.le_refl _
    · exfalso
      have hlt : b.lt a = true := by
        simp only [Date.le, Bool.or_eq_true, Bool.and_eq_true,
          decide_eq_true_eq, beq_iff_eq] at hle
        simp only [Date.lt, Bool.or_eq_true, Bool.and_eq_true,
          decide_eq_true_eq, beq_iff_eq]
        rcases hle with h' | ⟨hy, h'⟩
        · omega
        · rcases h' with h' | ⟨hm, hd⟩
          · omega
          · have : b.day ≠ a.day ∨ b.day = a.day := by omega
            rcases this with h'' | h''
            · omega
            · exfalso; apply hne; cases a; cases b; simp_all
      have := toOrdinal_lt_of_lt hb ha hlt
      omega

theorem toOrdinal_inj {a b : Date} (ha : a.valid) (hb : b.valid)
    (h : a.toOrdinal = b.toOrdinal) : a = b :=
  Date.le_antisymm (le_of_toOrdinal_le ha hb (by omega))
    (le_of_toOrdinal_le hb ha (by omega))

theorem Date.succ_toOrdinal {d : Date} (hd : d.valid) :
    d.succ.toOrdinal = d.toOrdinal + 1 := by
  obtain ⟨h1, h2, h3, h4, h5, h6⟩ := hd
  unfold Date.succ
  split
  · simp only [Date.toOrdinal]; omega
  · split
    · rename_i hday hmonth
      simp only [Date.toOrdinal]
      rw [daysBeforeMonth_succ d.year d.month h3]
      omega
    · rename_i hday hmonth
      have hm12 : d.month = 12 := by omega
      have hdim : d.day = daysInMonth d.year d.month := by omega
      simp only [Date.toOrdinal]
      rw [daysBeforeYear_succ d.year h1]
      have h13 := daysBeforeMonth_succ d.year 12 (by omega)
      rw [daysBeforeMonth_13] at h13
      have hdim12 : daysInMonth d.year 12 = 31 := by
        simp [daysInMonth]
      simp only [daysBeforeMonth]
      rw [hm12]
      rw [hdim12] at h13
      rw [hm12] at hdim
      omega

/-- The only valid date whose successor leaves the supported year range. -/
theorem Date.succ_valid {d : Date} (hd : d.valid)
    (hne : d ≠ ⟨9999, 12, 31⟩) : d.succ.valid := by
  obtain ⟨h1, h2, h3, h4, h5, h6⟩ := hd
  unfold Date.succ
  split
  · refine ⟨h1, h2, h3, h4, ?_, ?_⟩
    · show 1 ≤ d.day + 1; omega
    · show d.day + 1 ≤ daysInMonth d.year d.month; omega
  · split
    · rename_i hday hmonth
      refine ⟨h1, h2, ?_, ?_, ?_, ?_⟩
      · show 1 ≤ d.month + 1; omega
      · show d.month + 1 ≤ 12; omega
      · show 1 ≤ (1 : Nat); omega
      · show (1 : Nat) ≤ daysInMonth d.year (d.month + 1)
        exact daysInMonth_pos _ _
    · rename_i hday hmonth
      have hm12 : d.month = 12 := by omega
      have hy : d.year ≤ 9998 := by
        rcases Nat.lt_or_ge d.year 9999 with h | h
        · omega
        · exfalso
          apply hne
          have hy9 : d.year = 9999 := by omega
          have hdim : daysInMonth d.year 12 = 31 := by simp [daysInMonth]
          have : d.day = 31 := by rw [hm12] at h6 hday; omega
          cases d
          simp_all
      refine ⟨?_, ?_, ?_, ?_, ?_, ?_⟩
      · show 1 ≤ d.year + 1; omega
      · show d.year + 1 ≤ 9999; omega
      · show 1 ≤ (1 : Nat); omega
      · show (1 : Nat) ≤ 12; omega
      · show 1 ≤ (1 : Nat); omega
      · show (1 : Nat) ≤ daysInMonth (d.year + 1) 1
        exact daysInMonth_pos _ _

theorem Date.weekday_succ {d : Date} (hd : d.valid) :
    d.succ.weekday = (d.weekday + 1) % 7 := by
  unfold Date.weekday
  rw [Date.succ_toOrdinal hd]
  omega

/-- The last representable date has the largest ordinal of any valid date. -/
theorem toOrdinal_last (d : Date) (hd : d.valid)
    (h : d = (⟨9999, 12, 31⟩ : Date)) :
    d.toOrdinal = daysBeforeYear 10000 := by
  subst h
  have h13 := daysBeforeMonth_succ 9999 12 (by omega)
  rw [daysBeforeMonth_13] at h13
  have hdim12 : daysInMonth 9999 12 = 31 := by simp [daysInMonth]
  have hsucc := daysBeforeYear_succ 9999 (by omega)
  have h10k : (9999 : Nat) + 1 = 10000 := by norm_num
  rw [h10k] at hsucc
  simp only [Date.toOrdinal]
  rw [hdim12] at h13
  omega

/-- Every valid date is at most `date.max` = 9999-12-31. -/
theorem Date.le_max {e : Date} (he : e.valid) :
    e.le ⟨9999, 12, 31⟩ = true := by
  obtain ⟨h1, h2, h3, h4, h5, h6⟩ := he
  simp only [Date.le, Bool.or_eq_true, Bool.and_eq_true, decide_eq_true_eq,
    beq_iff_eq]
  rcases Nat.lt_or_ge e.year 9999 with h | h
  · left
    exact h
  · right
    have hy : e.year = 9999 := by omega
    refine ⟨hy, ?_⟩
    rcases Nat.lt_or_ge e.month 12 with hm | hm
    · left
      exact hm
    · right
      have hm12 : e.month = 12 := by omega
      refine ⟨hm12, ?_⟩
      have hdim : daysInMonth e.year e.month = 31 := by
        rw [hm12]
        simp [daysInMonth]
      omega

theorem eq_max_of_max_le {e : Date} (he : e.valid)
    (h : (⟨9999, 12, 31⟩ : Date).le e = true) : e = ⟨9999, 12, 31⟩ :=
  (Date.le_antisymm h (Date.le_max he)).symm

theorem addOneDay_some {d d' : Date} (h : d.addOneDay = some d') :
    d ≠ ⟨9999, 12, 31⟩ ∧ d' = d.succ := by
  unfold Date.addOneDay at h
  split at h
  · cases h
  · cases h
    exact ⟨by assumption, rfl⟩

/-!
The `while d <= end: … d += timedelta(days=1)` loop of the weekly
patterns.  The loop is modelled with an explicit fuel equal to the exact
number of iterations (`end.toordinal() + 1 - start.toordinal()`); for the
valid dates the program constructs this reproduces the loop exactly.
The increment is `Date.addOneDay`, so when the loop body runs at
`date.max` (a season ending 9999-12-31) the walk propagates the
`OverflowError` as `none`, exactly as the source raises after its final
iteration.
-/

def dateRangeAux (e : Date) : Nat → Date → Option (List Date)
  | 0, _ => some []
  | fuel + 1, d =>
    if d.le e then
      match d.addOneDay with
      | some d' => (dateRangeAux e fuel d').map (fun l => d :: l)
      | none => none
    else some []

/-- All dates from `s` to `e` inclusive, in ascending order --- or `none`
when the loop increments past `date.max` and raises. -/
def dateRange (s e : Date) : Option (List Date) :=
  dateRangeAux e (e.toOrdinal + 1 - s.toOrdinal) s

theorem le_of_mem_dateRangeAux {e : Date} : ∀ (fuel : Nat) (d : Date)
    (l : List Date), dateRangeAux e fuel d = some l →
    ∀ x ∈ l, d.le x = true := by
  intro fuel
  induction fuel with
  | zero =>
    intro d l h x hx
    cases h
    simp at hx
  | succ f ih =>
    intro d l h x hx
    simp only [dateRangeAux] at h
    split at h
    · cases had : d.addOneDay with
      | none => rw [had] at h; cases h
      | some d' =>
        rw [had] at h
        have h3 : (dateRangeAux e f d').map (fun l => d :: l) = some l := h
        cases hl' : dateRangeAux e f d' with
        | none => rw [hl'] at h3; cases h3
        | some l' =>
          rw [hl'] at h3
          have h2 : some (d :: l') = some l := h3
          cases h2
          rcases List.mem_cons.mp hx with rfl | hx'
          · exact Date.le_refl x
          · obtain ⟨hnmax, hd'⟩ := addOneDay_some had
            subst hd'
            exact Date.le_trans (Date.le_of_lt (Date.lt_succ d))
              (ih d.succ l' hl' x hx')
    · cases h
      simp at hx

theorem mem_dateRangeAux_le {e : Date} : ∀ (fuel : Nat) (d : Date)
    (l : List Date), dateRangeAux e fuel d = some l →
    ∀ x ∈ l, x.le e = true := by
  intro fuel
  induction fuel with
  | zero =>
    intro d l h x hx
    cases h
    simp at hx
  | succ f ih =>
    intro d l h x hx
    simp only [dateRangeAux] at h
    split at h
    · rename_i hle
      cases had : d.addOneDay with
      | none => rw [had] at h; cases h
      | some d' =>
        rw [had] at h
        have h3 : (dateRangeAux e f d').map (fun l => d :: l) = some l := h
        cases hl' : dateRangeAux e f d' with
        | none => rw [hl'] at h3; cases h3
        | some l' =>
          rw [hl'] at h3
          have h2 : some (d :: l') = some l := h3
          cases h2
          rcases List.mem_cons.mp hx with rfl | hx'
          · exact hle
          · exact ih d' l' hl' x hx'
    · cases h
      simp at hx

theorem dateRangeAux_pairwise {e : Date} : ∀ (fuel : Nat) (d : Date)
    (l : List Date), dateRangeAux e fuel d = some l →
    l.Pairwise (fun a b => a.lt b = true) := by
  intro fuel
  induction fuel with
  | zero =>
    intro d l h
    cases h
    exact List.Pairwise.nil
  | succ f ih =>
    intro d l h
    simp only [dateRangeAux] at h
    split at h
    · cases had : d.addOneDay with
      | none => rw [had] at h; cases h
      | some d' =>
        rw [had] at h
        have h3 : (dateRangeAux e f d').map (fun l => d :: l) = some l := h
        cases hl' : dateRangeAux e f d' with
        | none => rw [hl'] at h3; cases h3
        | some l' =>
          rw [hl'] at h3
          have h2 : some (d :: l') = some l := h3
          cases h2
          refine List.Pairwise.cons ?_ (ih d' l' hl')
          intro x hx
          obtain ⟨hnmax, hd'⟩ := addOneDay_some had
          subst hd'
          exact Date.lt_of_lt_of_le (Date.lt_succ d)
            (le_of_mem_dateRangeAux f d.succ l' hl' x hx)
    · cases h
      exact List.Pairwise.nil

theorem mem_dateRangeAux_valid {e : Date} : ∀ (fuel : Nat) (d : Date),
    d.valid → ∀ (l : List Date), dateRangeAux e fuel d = some l →
    ∀ x ∈ l, x.valid := by
  intro fuel
  induction fuel with
  | zero =>
    intro d hd l h x hx
    cases h
    simp at hx
  | succ f ih =>
    intro d hd l h x hx
    simp only [dateRangeAux] at h
    split at h
    · cases had : d.addOneDay with
      | none => rw [had] at h; cases h
      | some d' =>
        rw [had] at h
        have h3 : (dateRangeAux e f d').map (fun l => d :: l) = some l := h
        cases hl' : dateRangeAux e f d' with
        | none => rw [hl'] at h3; cases h3
        | some l' =>
          rw [hl'] at h3
          have h2 : some (d :: l') = some l := h3
          cases h2
          rcases List.mem_cons.mp hx with rfl | hx'
          · exact hd
          · obtain ⟨hnmax, hd'⟩ := addOneDay_some had
            subst hd'
            exact ih d.succ (Date.succ_valid hd hnmax) l' hl' x hx'
    · cases h
      simp at hx

theorem mem_dateRangeAux_of_between {e : Date} (he : e.valid) :
    ∀ (fuel : Nat) (s : Date), s.valid →
    fuel = e.toOrdinal + 1 - s.toOrdinal →
    ∀ (l : List Date), dateRangeAux e fuel s = some l →
    ∀ (x : Date), x.valid → s.le x = true → x.le e = true → x ∈ l := by
  intro fuel
  induction fuel with
  | zero =>
    intro s hs hfuel l h x hx hsx hxe
    exfalso
    have h1 := toOrdinal_le_of_le hs hx hsx
    have h2 := toOrdinal_le_of_le hx he hxe
    omega
  | succ f ih =>
    intro s hs hfuel l h x hx hsx hxe
    have hse : s.le e = true := Date.le_trans hsx hxe
    simp only [dateRangeAux] at h
    rw [if_pos hse] at h
    cases had : s.addOneDay with
    | none => rw [had] at h; cases h
    | some s' =>
      rw [had] at h
      have h3 : (dateRangeAux e f s').map (fun l => s :: l) = some l := h
      cases hl' : dateRangeAux e f s' with
      | none => rw [hl'] at h3; cases h3
      | some l' =>
        rw [hl'] at h3
        have h2 : some (s :: l') = some l := h3
        cases h2
        rcases em (x = s) with rfl | hne
        · exact List.mem_cons_self _ _
        · obtain ⟨hnmax, hs'⟩ := addOneDay_some had
          subst hs'
          have hsv : s.succ.valid := Date.succ_valid hs hnmax
          have hso := Date.succ_toOrdinal hs
          have hb1 := toOrdinal_le_of_le hs hx hsx
          have hb2 := toOrdinal_le_of_le hx he hxe
          have hlt : s.toOrdinal + 1 ≤ x.toOrdinal := by
            rcases em (s.toOrdinal = x.toOrdinal) with hc | hc
            · exact absurd (toOrdinal_inj hs hx hc).symm hne
            · omega
          exact List.mem_cons_of_mem _
            (ih s.succ hsv (by omega) l' hl' x hx
              (le_of_toOrdinal_le hsv hx (by omega)) hxe)

/-- Full characterization of a completed range walk for valid
endpoints. -/
theorem mem_dateRange_iff {s e : Date} (hs : s.valid) (he : e.valid)
    {l : List Date} (h : dateRange s e = some l) (x : Date) :
    x ∈ l ↔ (x.valid ∧ s.le x = true ∧ x.le e = true) := by
  constructor
  · intro hx
    exact ⟨mem_dateRangeAux_valid _ s hs l h x hx,
      le_of_mem_dateRangeAux _ s l h x hx,
      mem_dateRangeAux_le _ s l h x hx⟩
  · rintro ⟨h1, h2, h3⟩
    exact mem_dateRangeAux_of_between he _ s hs rfl l h x h1 h2 h3

/-- When the season end is not `date.max`, the walk never overflows and
the loop returns normally. -/
theorem dateRangeAux_isSome {e : Date} (he : e.valid)
    (hne : e ≠ ⟨9999, 12, 31⟩) :
    ∀ (fuel : Nat) (d : Date), ∃ l, dateRangeAux e fuel d = some l := by
  intro fuel
  induction fuel with
  | zero =>
    intro d
    exact ⟨[], rfl⟩
  | succ f ih =>
    intro d
    simp only [dateRangeAux]
    by_cases hle : d.le e = true
    · rw [if_pos hle]
      have hnmax : d ≠ ⟨9999, 12, 31⟩ := by
        intro hc
        subst hc
        exact hne (eq_max_of_max_le he hle)
      have had : d.addOneDay = some d.succ := by
        unfold Date.addOneDay
        rw [if_neg hnmax]
      rw [had]
      obtain ⟨l, hl⟩ := ih d.succ
      refine ⟨d :: l, ?_⟩
      show (dateRangeAux e f d.succ).map (fun l => d :: l) = some (d :: l)
      rw [hl]
      rfl
    · rw [if_neg hle]
      exact ⟨[], rfl⟩

/-!
The `while d.weekday() != 4: d += timedelta(days=1)` scan of the
`first_friday` pattern.  The source loop is unbounded; we give it fuel 7
and prove below that seven probes (six increments) always suffice, so the
fuelled function coincides with the source loop on every input the
program constructs (`findWeekdayAux_fuel`).
-/

def findWeekdayAux (w : Nat) : Nat → Date → Date
  | 0, d => d
  | fuel + 1, d => if d.weekday == w then d else findWeekdayAux w fuel d.succ

def findFirstWeekday (d : Date) (w : Nat) : Date := findWeekdayAux w 7 d

theorem Date.weekday_lt_7 (d : Date) : d.weekday < 7 := by
  unfold Date.weekday
  omega

theorem exists_weekday_hit (d : Date) {w : Nat} (hw : w < 7) :
    ∃ k, k < 7 ∧ (d.weekday + k) % 7 = w := by
  have h := d.weekday_lt_7
  exact ⟨(7 + w - d.weekday) % 7, by omega, by omega⟩

theorem findWeekdayAux_spec {w : Nat} : ∀ (fuel : Nat) (d : Date),
    d.valid →
    d.day + fuel ≤ daysInMonth d.year d.month + 1 →
    (∃ k, k < fuel ∧ (d.weekday + k) % 7 = w) →
    (findWeekdayAux w fuel d).valid ∧
      (findWeekdayAux w fuel d).weekday = w ∧
      (findWeekdayAux w fuel d).year = d.year ∧
      (findWeekdayAux w fuel d).month = d.month ∧
      d.day ≤ (findWeekdayAux w fuel d).day ∧
      (findWeekdayAux w fuel d).day + 1 ≤ d.day + fuel := by
  intro fuel
  induction fuel with
  | zero =>
    rintro d _ _ ⟨k, hk, _⟩
    omega
  | succ f ih =>
    rintro d hd hroom ⟨k, hk, hkw⟩
    simp only [findWeekdayAux]
    rcases em (d.weekday = w) with hhit | hhit
    · rw [if_pos (show (d.weekday == w) = true by simp [hhit])]
      exact ⟨hd, hhit, rfl, rfl, Nat.le_refl _, by omega⟩
    · have hbeq : (d.weekday == w) = false := by
        simp [hhit]
      rw [hbeq]
      simp only [Bool.false_eq_true, if_neg, not_false_iff]
      have hk0 : k ≠ 0 := by
        intro hc
        subst hc
        have h7 := d.weekday_lt_7
        apply hhit
        omega
      have hf1 : 1 ≤ f := by omega
      have hroom' : d.day < daysInMonth d.year d.month := by omega
      have hsucc_eq : d.succ = ⟨d.year, d.month, d.day + 1⟩ := by
        unfold Date.succ
        rw [if_pos hroom']
      have hsv : d.succ.valid := by
        rw [hsucc_eq]
        obtain ⟨h1, h2, h3, h4, h5, h6⟩ := hd
        refine ⟨h1, h2, h3, h4, ?_, ?_⟩
        · show 1 ≤ d.day + 1; omega
        · show d.day + 1 ≤ daysInMonth d.year d.month; omega
      have hw' : d.succ.weekday = (d.weekday + 1) % 7 := Date.weekday_succ hd
      have hhit' : ∃ k', k' < f ∧ (d.succ.weekday + k') % 7 = w := by
        refine ⟨k - 1, by omega, ?_⟩
        rw [hw', Nat.mod_add_mod]
        have harr : d.weekday + 1 + (k - 1) = d.weekday + k := by omega
        rw [harr]
        exact hkw
      have hroom'' : d.succ.day + f ≤ daysInMonth d.succ.year d.succ.month + 1 := by
        rw [hsucc_eq]
        show d.day + 1 + f ≤ daysInMonth d.year d.month + 1
        omega
      have hsy : d.succ.year = d.year := by rw [hsucc_eq]
      have hsm : d.succ.month = d.month := by rw [hsucc_eq]
      have hsd : d.succ.day = d.day + 1 := by rw [hsucc_eq]
      obtain ⟨r1, r2, r3, r4, r5, r6⟩ := ih d.succ hsv hroom'' hhit'
      refine ⟨r1, r2, ?_, ?_, ?_, ?_⟩
      · rw [r3]; exact hsy
      · rw [r4]; exact hsm
      · omega
      · omega

/-- Once a hit is guaranteed within the fuel, extra fuel is irrelevant:
the fuelled scan agrees with the source's unbounded loop. -/
theorem findWeekdayAux_fuel {w : Nat} : ∀ (fuel j : Nat) (d : Date),
    d.valid →
    d.day + fuel ≤ daysInMonth d.year d.month + 1 →
    (∃ k, k < fuel ∧ (d.weekday + k) % 7 = w) →
    findWeekdayAux w (fuel + j) d = findWeekdayAux w fuel d := by
  intro fuel
  induction fuel with
  | zero =>
    rintro j d _ _ ⟨k, hk, _⟩
    omega
  | succ f ih =>
    rintro j d hd hroom ⟨k, hk, hkw⟩
    have hassoc : f + 1 + j = (f + j) + 1 := by omega
    rw [hassoc]
    simp only [findWeekdayAux]
    rcases em (d.weekday = w) with hhit | hhit
    · simp [hhit]
    · have hbeq : (d.weekday == w) = false := by simp [hhit]
      rw [hbeq]
      simp only [Bool.false_eq_true, if_neg, not_false_iff]
      have hk0 : k ≠ 0 := by
        intro hc
        subst hc
        have h7 := d.weekday_lt_7
        apply hhit
        omega
      have hroom' : d.day < daysInMonth d.year d.month := by omega
      have hsucc_eq : d.succ = ⟨d.year, d.month, d.day + 1⟩ := by
        unfold Date.succ
        rw [if_pos hroom']
      have hsv : d.succ.valid := by
        rw [hsucc_eq]
        obtain ⟨h1, h2, h3, h4, h5, h6⟩ := hd
        refine ⟨h1, h2, h3, h4, ?_, ?_⟩
        · show 1 ≤ d.day + 1; omega
        · show d.day + 1 ≤ daysInMonth d.year d.month; omega
      have hw' : d.succ.weekday = (d.weekday + 1) % 7 := Date.weekday_succ hd
      have hhit' : ∃ k', k' < f ∧ (d.succ.weekday + k') % 7 = w := by
        refine ⟨k - 1, by omega, ?_⟩
        rw [hw', Nat.mod_add_mod]
        have harr : d.weekday + 1 + (k - 1) = d.weekday + k := by omega
        rw [harr]
        exact hkw
      have hroom'' : d.succ.day + f ≤ daysInMonth d.succ.year d.succ.month + 1 := by
        rw [hsucc_eq]
        show d.day + 1 + f ≤ daysInMonth d.year d.month + 1
        omega
      exact ih j d.succ hsv hroom'' hhit'

/-- Two dates of the same month with the same weekday have the same
day-of-month residue mod 7. -/
theorem weekday_day_mod {a b : Date} (hy : a.year = b.year)
    (hm : a.month = b.month) (hw : a.weekday = b.weekday) :
    a.day % 7 = b.day % 7 := by
  unfold Date.weekday Date.toOrdinal at hw
  rw [hy, hm] at hw
  omega

/-!
The event-definition table.  A table row is a Python dict; the keys the
code reads unconditionally (`event_def['name']`, `['type']`, `['boost']`,
`['pattern']`) are required fields, every key read through `.get` or
inside a specific pattern branch is an `Option` field.
-/

structure EventDef where
  name : String
  type_ : String
  description : Option String := none
  source : Option String := none
  pattern : String
  typical_month : Option Nat := none
  typical_days : Option (List Nat) := none
  season_start_month : Option Nat := none
  season_start_day : Option Nat := none
  season_end_month : Option Nat := none
  season_end_day : Option Nat := none
  start_year : Option Int := none
  end_year : Option Int := none
  skip_years : Option (List Int) := none
  boost : ℚ
  time : Option String := none
  location : Option String := none
  deriving DecidableEq, Repr

/-- The `every_friday` / `every_saturday` branches of
`generate_event_dates` (they differ only in the weekday constant).
`none` models an uncaught `KeyError`/`ValueError`. -/
def weeklyDates (d : EventDef) (year : Int) (w : Nat) : Option (List Date) :=
  match d.season_start_month, d.season_start_day,
      d.season_end_month, d.season_end_day with
  | some sm, some sd, some em, some ed =>
    match mkDate year sm sd, mkDate year em ed with
    | some s, some e =>
      match dateRange s e with
      | some r => some (r.filter (fun x => x.weekday == w))
      | none => none
    | _, _ => none
  | _, _, _, _ => none

/-- `generate_event_dates(event_def, year)`.  Returns `some dates` when
the Python function returns normally and `none` when it would raise
(missing required pattern key, or an invalid season/year passed to
`date(...)` outside the guarded `fixed_dates` try/except). -/
def generate_event_dates (d : EventDef) (year : Int) : Option (List Date) :=
  if year < d.start_year.getD 2015 then some []
  else if year > d.end_year.getD 2025 then some []
  else if year ∈ d.skip_years.getD [] then some []
  else if d.pattern = "fixed_dates" then
    match d.typical_month, d.typical_days with
    | some m, some days =>
      some (days.filterMap (fun day => mkDate year m day))
    | _, _ => none
  else if d.pattern = "every_friday" then weeklyDates d year 4
  else if d.pattern = "every_saturday" then weeklyDates d year 5
  else if d.pattern = "first_friday" then
    -- `date(year, month, 1)` raises exactly when `year` is out of range
    -- (day 1 exists in every month), so the month loop either fails on its
    -- first construction or completes all twelve months.
    if 1 ≤ year ∧ year ≤ 9999 then
      some ((List.range 12).map (fun i =>
        findFirstWeekday ⟨year.toNat, i + 1, 1⟩ 4))
    else none
  else some []

/-!
Full-calendar assembly (`build_full_calendar`).  Entries carry the ISO
date string (`d.isoformat()`), and the final `calendar.sort(key=lambda
x: x['date'])` is a stable sort on that string; Python compares strings
lexicographically by code point, which `strLE` below reproduces.
-/

structure CalendarEntry where
  date : String
  name : String
  type_ : String
  boost : ℚ
  description : String
  location : String
  source : String
  deriving DecidableEq, Repr

def padZeros (w n : Nat) : String :=
  let s := toString n
  String.mk (List.replicate (w - s.length) '0') ++ s

/-- `date.isoformat()`: `YYYY-MM-DD` with zero padding. -/
def Date.iso (d : Date) : String :=
  padZeros 4 d.year ++ "-" ++ padZeros 2 d.month ++ "-" ++ padZeros 2 d.day

/-- Lexicographic-by-code-point `<=` on character lists. -/
def charsLE : List Char → List Char → Bool
  | [], _ => true
  | _ :: _, [] => false
  | a :: as, b :: bs =>
    if a.toNat < b.toNat then true
    else if b.toNat < a.toNat then false
    else charsLE as bs

/-- Python's `<=` on strings. -/
def strLE (a b : String) : Bool := charsLE a.data b.data

theorem charsLE_refl : ∀ as, charsLE as as = true
  | [] => rfl
  | a :: as => by
    simp only [charsLE, Nat.lt_irrefl, if_neg, not_false_iff, if_false]
    exact charsLE_refl as

theorem charsLE_total : ∀ as bs, charsLE as bs = true ∨ charsLE bs as = true
  | [], _ => Or.inl rfl
  | _ :: _, [] => Or.inr rfl
  | a :: as, b :: bs => by
    simp only [charsLE]
    rcases Nat.lt_trichotomy a.toNat b.toNat with h | h | h
    · left; rw [if_pos h]
    · rw [if_neg (by omega), if_neg (by omega), if_neg (by omega),
        if_neg (by omega)]
      exact charsLE_total as bs
    · right; rw [if_pos h]

theorem charsLE_trans : ∀ as bs cs, charsLE as bs = true →
    charsLE bs cs = true → charsLE as cs = true
  | [], _, _ => by intro _ _; rfl
  | a :: as, [], _ => by intro h; simp [charsLE] at h
  | a :: as, b :: bs, [] => by intro _ h; simp [charsLE] at h
  | a :: as, b :: bs, c :: cs => by
    intro h1 h2
    simp only [charsLE] at h1 h2 ⊢
    rcases Nat.lt_trichotomy a.toNat b.toNat with hab | hab | hab <;>
      rcases Nat.lt_trichotomy b.toNat c.toNat with hbc | hbc | hbc
    all_goals first
      | (rw [if_pos (by omega)])
      | (rw [if_neg (by omega), if_neg (by omega)]
         rw [if_neg (by omega), if_neg (by omega)] at h1 h2
         exact charsLE_trans as bs cs h1 h2)
      | (exfalso
         rw [if_neg (by omega), if_pos (by omega)] at h1
         exact Bool.false_ne_true h1)
      | (exfalso
         rw [if_neg (by omega), if_pos (by omega)] at h2
         exact Bool.false_ne_true h2)

theorem strLE_refl (a : String) : strLE a a = true := charsLE_refl a.data

theorem strLE_total (a b : String) :
    (strLE a b || strLE b a) = true := by
  rcases charsLE_total a.data b.data with h | h <;>
    simp [strLE, h]

theorem strLE_trans {a b c : String} (h1 : strLE a b = true)
    (h2 : strLE b c = true) : strLE a c = true :=
  charsLE_trans a.data b.data c.data h1 h2

/-- The sort key comparison of `calendar.sort(key=lambda x: x['date'])`. -/
def entryLE (a b : CalendarEntry) : Bool := strLE a.date b.date

/-- Building one calendar row from a definition and a concrete date
(the dict literal appended inside `build_full_calendar`). -/
def mkEntry (d : EventDef) (dt : Date) : CalendarEntry :=
  { date := dt.iso
    name := d.name
    type_ := d.type_
    boost := d.boost
    description := d.description.getD ""
    location := d.location.getD "Downtown Mall"
    source := d.source.getD "curated" }

/-- `range(start_year, end_year + 1)` as a list of `Int` years. -/
def yearsList (sy ey : Int) : List Int :=
  (List.range (ey + 1 - sy).toNat).map (fun i => sy + i)

/-- The `for year in range(...)` inner loop for one definition. -/
def entriesForDef (d : EventDef) : List Int → Option (List CalendarEntry)
  | [] => some []
  | y :: ys =>
    match generate_event_dates d y, entriesForDef d ys with
    | some ds, some rest => some (ds.map (mkEntry d) ++ rest)
    | _, _ => none

/-- Concatenated, generation-ordered entries for all definitions
(everything of `build_full_calendar` before the final sort). -/
def build_entries (defs : List EventDef) (sy ey : Int) :
    Option (List CalendarEntry) :=
  match defs with
  | [] => some []
  | d :: rest =>
    match entriesForDef d (yearsList sy ey), build_entries rest sy ey with
    | some a, some b => some (a ++ b)
    | _, _ => none

/-- `build_full_calendar` over an explicit definition table. -/
def build_full_calendar_over (defs : List EventDef) (sy ey : Int) :
    Option (List CalendarEntry) :=
  (build_entries defs sy ey).map (fun cal => cal.mergeSort entryLE)

/-- The static `RECURRING_EVENTS` table, transcribed field by field. -/
def RECURRING_EVENTS : List EventDef :=
  [ { name := "Fridays After Five"
      type_ := "music"
      description := some "Free concert series at Ting Pavilion. 37th season in 2025."
      source := some "https://www.tingpavilion.com/events-tickets/fridaysafter5"
      pattern := "every_friday"
      season_start_month := some 4
      season_start_day := some 18
      season_end_month := some 9
      season_end_day := some 5
      start_year := some 2015
      end_year := some 2025
      skip_years := some [2020]
      boost := 0.4
      time := some "17:30-21:00"
      location := some "Ting Pavilion, Downtown Mall" }
  , { name := "Tom Tom Festival"
      type_ := "festival"
      description := some "Music, art & ideas festival. Block party on Downtown Mall."
      source := some "https://www.tomtomfoundation.org/2025-festival"
      pattern := "fixed_dates"
      typical_month := some 4
      typical_days := some [16, 17, 18, 19, 20]
      start_year := some 2013
      end_year := some 2025
      skip_years := some [2020, 2021]
      boost := 0.6
      location := some "Downtown Mall, CODE Building" }
  , { name := "Virginia Film Festival"
      type_ := "festival"
      description := some "International film celebration at Violet Crown & Paramount."
      source := some "https://virginiafilmfestival.org"
      pattern := "fixed_dates"
      typical_month := some 10
      typical_days := some [22, 23, 24, 25, 26]
      start_year := some 2015
      end_year := some 2025
      skip_years := some [2020]
      boost := 0.35
      location := some "Violet Crown Cinema, Paramount Theater" }
  , { name := "Virginia Festival of the Book"
      type_ := "festival"
      description := some "Literary culture celebration. Free and open to public."
      source := some "https://vabook.org"
      pattern := "fixed_dates"
      typical_month := some 3
      typical_days := some [18, 19, 20, 21, 22]
      start_year := some 2015
      end_year := some 2025
      skip_years := some [2020]
      boost := 0.25
      location := some "Downtown Mall venues" }
  , { name := "Charlottesville City Market"
      type_ := "market"
      description := some "Saturday farmers market with local produce and crafts."
      source := some "https://www.charlottesvillecitymarket.com"
      pattern := "every_saturday"
      season_start_month := some 4
      season_start_day := some 1
      season_end_month := some 12
      season_end_day := some 20
      start_year := some 2015
      end_year := some 2025
      skip_years := some []
      boost := 0.2
      time := some "07:00-12:00"
      location := some "City Market, Water Street" }
  , { name := "First Fridays"
      type_ := "art"
      description := some "Gallery walk on the Downtown Mall. First Friday of each month."
      source := some "https://www.visitcharlottesville.org"
      pattern := "first_friday"
      start_year := some 2015
      end_year := some 2025
      skip_years := some [2020]
      boost := 0.2
      time := some "17:00-20:00"
      location := some "Downtown Mall galleries" }
  , { name := "Dogwood Festival"
      type_ := "festival"
      description := some "Spring parade & carnival since 1950. Canceled 2025."
      source := some "https://www.cvilledogwood.com"
      pattern := "fixed_dates"
      typical_month := some 4
      typical_days := some [10, 11, 12, 13, 14]
      start_year := some 2015
      end_year := some 2024
      skip_years := some [2020, 2021]
      boost := 0.3
      location := some "Downtown Charlottesville" }
  , { name := "Soul of C\x27ville"
      type_ := "festival"
      description := some "Celebration of Black excellence in Charlottesville."
      source := some "https://www.soulofcville.com"
      pattern := "fixed_dates"
      typical_month := some 6
      typical_days := some [14, 15, 16]
      start_year := some 2018
      end_year := some 2025
      skip_years := some [2020]
      boost := 0.3
      location := some "IX Art Park" }
  , { name := "Juneteenth Celebration"
      type_ := "civic"
      description := some "Community celebration of freedom."
      pattern := "fixed_dates"
      typical_month := some 6
      typical_days := some [19]
      start_year := some 2020
      end_year := some 2025
      boost := 0.2
      location := some "Downtown Mall" }
  , { name := "Independence Day"
      type_ := "civic"
      description := some "Fireworks and celebrations."
      pattern := "fixed_dates"
      typical_month := some 7
      typical_days := some [4]
      start_year := some 2015
      end_year := some 2025
      skip_years := some [2020]
      boost := 0.5
      location := some "McIntire Park / Downtown" }
  , { name := "Halloween on the Mall"
      type_ := "civic"
      description := some "Downtown trick-or-treating and costume parade."
      pattern := "fixed_dates"
      typical_month := some 10
      typical_days := some [31]
      start_year := some 2015
      end_year := some 2025
      skip_years := some [2020]
      boost := 0.3
      location := some "Downtown Mall" }
  , { name := "First Night Charlottesville"
      type_ := "civic"
      description := some "New Year\x27s Eve celebration on the Downtown Mall."
      pattern := "fixed_dates"
      typical_month := some 12
      typical_days := some [31]
      start_year := some 2015
      end_year := some 2025
      skip_years := some [2020]
      boost := 0.45
      location := some "Downtown Mall" }
  , { name := "Small Business Saturday"
      type_ := "market"
      description := some "Shop local celebration."
      pattern := "fixed_dates"
      typical_month := some 11
      typical_days := some [25]
      start_year := some 2015
      end_year := some 2025
      boost := 0.2
      location := some "Downtown Mall shops" }
  , { name := "UVA Graduation Weekend"
      type_ := "uva"
      description := some "Families flood downtown for UVA commencement."
      pattern := "fixed_dates"
      typical_month := some 5
      typical_days := some [17, 18, 19]
      start_year := some 2015
      end_year := some 2025
      skip_years := some [2020]
      boost := 0.35
      location := some "UVA Grounds + Downtown" }
  , { name := "UVA Move-In Weekend"
      type_ := "uva"
      description := some "Students return, restaurants and shops see surge."
      pattern := "fixed_dates"
      typical_month := some 8
      typical_days := some [22, 23, 24, 25]
      start_year := some 2015
      end_year := some 2025
      boost := 0.15
      location := some "UVA area + Downtown" }
  ]

/-- `build_full_calendar(start_year=2015, end_year=2025)` over the
module-level table. -/
def build_full_calendar (sy ey : Int) : Option (List CalendarEntry) :=
  build_full_calendar_over RECURRING_EVENTS sy ey

/-!
`build_viz_format`: the compact projection for the visualization.
Optional dict keys become `Option` fields that stay `none` when the
Python code does not set them.  (The assignments
`entry['startMonth'] = ev['season_start_month']` … would raise `KeyError`
on a malformed definition; we copy the `Option` through, which agrees
with the source on every definition whose pattern parameters are
present, in particular on the whole table.)
-/

structure VizEntry where
  name : String
  type_ : String
  boost : ℚ
  desc : String
  recurring : Option String := none
  startMonth : Option Nat := none
  startDay : Option Nat := none
  endMonth : Option Nat := none
  endDay : Option Nat := none
  month : Option Nat := none
  days : Option (List Nat) := none
  endYear : Option Int := none
  skipYears : Option (List Int) := none
  deriving DecidableEq, Repr

def build_viz_entry (ev : EventDef) : VizEntry :=
  -- Each field below is the final value of the corresponding dict key
  -- after the incremental `entry[...] = ...` assignments of the source:
  -- the `elif` chain on the pattern sets the weekly window / fixed-date
  -- keys only for the matching pattern, `endYear` is set only when
  -- `ev.get('end_year')` is truthy and below 2025, and `skipYears` only
  -- when `ev.get('skip_years')` is truthy (a non-empty list).
  { name := ev.name
    type_ := ev.type_
    boost := ev.boost
    desc := ev.description.getD ""
    recurring :=
      if ev.pattern = "every_friday" then some "friday"
      else if ev.pattern = "every_saturday" then some "saturday"
      else if ev.pattern = "first_friday" then some "first_friday"
      else none
    startMonth :=
      if ev.pattern = "every_friday" ∨ ev.pattern = "every_saturday" then
        ev.season_start_month
      else none
    startDay :=
      if ev.pattern = "every_friday" ∨ ev.pattern = "every_saturday" then
        ev.season_start_day
      else none
    endMonth :=
      if ev.pattern = "every_friday" ∨ ev.pattern = "every_saturday" then
        ev.season_end_month
      else none
    endDay :=
      if ev.pattern = "every_friday" ∨ ev.pattern = "every_saturday" then
        ev.season_end_day
      else none
    month := if ev.pattern = "fixed_dates" then ev.typical_month else none
    days := if ev.pattern = "fixed_dates" then ev.typical_days else none
    endYear :=
      match ev.end_year with
      | some n => if n ≠ 0 ∧ n < 2025 then some n else none
      | none => none
    skipYears :=
      match ev.skip_years with
      | some l => if l ≠ [] then some l else none
      | none => none }

def build_viz_format : List VizEntry := RECURRING_EVENTS.map build_viz_entry

/-- Written after the spec's words (§4.1 compact/visualization projection):
a client that re-implements the same pattern rules from the compact
projection's fields alone — season window / fixed day list / first-Friday
scan, gated by the projected `endYear` (absent means the full-range
maximum 2025) and `skipYears` (absent means none).  Used only to compare
the projection against `expand`; it is not part of the source. -/
def vizDatesSpec (v : VizEntry) (year : Int) : List Date :=
  if year > v.endYear.getD 2025 then []
  else if year ∈ v.skipYears.getD [] then []
  else
    match v.recurring with
    | some r =>
      if r = "friday" then
        match v.startMonth, v.startDay, v.endMonth, v.endDay with
        | some sm, some sd, some em, some ed =>
          match mkDate year sm sd, mkDate year em ed with
          | some s, some e =>
            match dateRange s e with
            | some r => r.filter (fun x => x.weekday == 4)
            | none => []
          | _, _ => []
        | _, _, _, _ => []
      else if r = "saturday" then
        match v.startMonth, v.startDay, v.endMonth, v.endDay with
        | some sm, some sd, some em, some ed =>
          match mkDate year sm sd, mkDate year em ed with
          | some s, some e =>
            match dateRange s e with
            | some r => r.filter (fun x => x.weekday == 5)
            | none => []
          | _, _ => []
        | _, _, _, _ => []
      else if r = "first_friday" then
        if 1 ≤ year ∧ year ≤ 9999 then
          (List.range 12).map (fun i =>
            findFirstWeekday ⟨year.toNat, i + 1, 1⟩ 4)
        else []
      else []
    | none =>
      match v.month, v.days with
      | some m, some days => days.filterMap (fun day => mkDate year m day)
      | _, _ => []

/-! ### Concrete definitions used to instantiate the theorems -/

/-- A minimal fixed-dates definition (July 4). -/
def independenceDef : EventDef :=
  { name := "Independence", type_ := "civic", pattern := "fixed_dates",
    typical_month := some 7, typical_days := some [4], boost := 0.5 }

/-- A minimal first-Friday definition. -/
def firstFridaysDef : EventDef :=
  { name := "First Fridays", type_ := "art", pattern := "first_friday",
    start_year := some 2015, end_year := some 2025,
    skip_years := some [2020], boost := 0.2 }

/-- A minimal weekly-Friday definition with the 2025 season window. -/
def fridaysDef : EventDef :=
  { name := "Fridays After Five", type_ := "music",
    pattern := "every_friday", season_start_month := some 4,
    season_start_day := some 18, season_end_month := some 9,
    season_end_day := some 5, start_year := some 2015,
    end_year := some 2025, skip_years := some [2020], boost := 0.4 }

/-- A weekly definition whose season ends on December 31 of year 9999
(`date.max`): the input on which the source's season walk overflows. -/
def maxSeasonDef : EventDef :=
  { name := "Max Season", type_ := "music", pattern := "every_friday",
    season_start_month := some 12, season_start_day := some 25,
    season_end_month := some 12, season_end_day := some 31,
    start_year := some 9999, end_year := some 9999, boost := 0.1 }

/-- A definition with no optional metadata keys at all. -/
def bareDef : EventDef :=
  { name := "Bare", type_ := "civic", pattern := "fixed_dates",
    typical_month := some 6, typical_days := some [19], boost := 0.2 }

/-- A one-definition table for exercising the calendar assembly. -/
def smallTable : List EventDef := [independenceDef]

/-- The Juneteenth row of `RECURRING_EVENTS`, repeated verbatim so the
projection theorems can be instantiated on a named table element. -/
def juneteenthDef : EventDef :=
  { name := "Juneteenth Celebration"
    type_ := "civic"
    description := some "Community celebration of freedom."
    pattern := "fixed_dates"
    typical_month := some 6
    typical_days := some [19]
    start_year := some 2020
    end_year := some 2025
    boost := 0.2
    location := some "Downtown Mall" }

/-- The single calendar row `smallTable` generates for 2025. -/
def july4Entry : CalendarEntry :=
  { date := "2025-07-04", name := "Independence", type_ := "civic",
    boost := 0.5, description := "", location := "Downtown Mall",
    source := "curated" }

/-! ### Helper lemmas about the expansion branches -/

theorem mkDate_some {y : Int} {m day : Nat} {x : Date}
    (h : mkDate y m day = some x) :
    x = ⟨y.toNat, m, day⟩ ∧ x.valid ∧ (x.year : Int) = y := by
  unfold mkDate at h
  split at h
  · rename_i hv
    obtain ⟨h1, h2, h3, h4, h5, h6⟩ := hv
    cases h
    refine ⟨rfl, ⟨?_, ?_, h3, h4, h5, h6⟩, ?_⟩
    · show 1 ≤ y.toNat; omega
    · show y.toNat ≤ 9999; omega
    · show ((y.toNat : Int)) = y; omega
  · cases h

theorem filterMap_mkDate (y : Int) (m : Nat) : ∀ days : List Nat,
    days.filterMap (fun day => mkDate y m day) =
      (days.filter (fun day => decide (isValidYMD y m day))).map
        (fun day => (⟨y.toNat, m, day⟩ : Date))
  | [] => rfl
  | day :: rest => by
    by_cases h : isValidYMD y m day
    · have hmk : mkDate y m day = some (⟨y.toNat, m, day⟩ : Date) := by
        rw [mkDate, if_pos h]
      simp [hmk, h, filterMap_mkDate y m rest]
    · have hmk : mkDate y m day = none := by
        rw [mkDate, if_neg h]
      simp [hmk, h, filterMap_mkDate y m rest]

theorem generate_fixed_dates_eq (d : EventDef) (y : Int) (m : Nat)
    (days : List Nat) (hp : d.pattern = "fixed_dates")
    (hm : d.typical_month = some m) (hd : d.typical_days = some days)
    (h1 : ¬ y < d.start_year.getD 2015) (h2 : ¬ y > d.end_year.getD 2025)
    (h3 : y ∉ d.skip_years.getD []) :
    generate_event_dates d y =
      some ((days.filter (fun day => decide (isValidYMD y m day))).map
        (fun day => (⟨y.toNat, m, day⟩ : Date))) := by
  unfold generate_event_dates
  rw [if_neg h1, if_neg h2, if_neg h3, if_pos hp]
  simp only [hm, hd]
  rw [filterMap_mkDate y m days]

theorem weeklyDates_eq (d : EventDef) (y : Int) (w : Nat)
    {sm sd em ed : Nat} {s e : Date} {r : List Date}
    (hsm : d.season_start_month = some sm)
    (hsd : d.season_start_day = some sd)
    (hem : d.season_end_month = some em)
    (hed : d.season_end_day = some ed)
    (hs : mkDate y sm sd = some s) (he : mkDate y em ed = some e)
    (hr : dateRange s e = some r) :
    weeklyDates d y w = some (r.filter (fun x => x.weekday == w)) := by
  unfold weeklyDates
  simp only [hsm, hsd, hem, hed, hs, he, hr]

theorem weeklyDates_mem {d : EventDef} {y : Int} {w : Nat}
    {ds : List Date} (h : weeklyDates d y w = some ds) {x : Date}
    (hx : x ∈ ds) : (x.year : Int) = y ∧ x.weekday = w := by
  unfold weeklyDates at h
  split at h
  · split at h
    · rename_i s e hs he
      split at h
      · rename_i r hr
        cases h
        obtain ⟨hxr, hxw⟩ := List.mem_filter.mp hx
        obtain ⟨hseq, hsv, hsy⟩ := mkDate_some hs
        obtain ⟨heeq, hev, hey⟩ := mkDate_some he
        have hb1 := le_of_mem_dateRangeAux _ s r hr x hxr
        have hb2 := mem_dateRangeAux_le _ s r hr x hxr
        constructor
        · have hsyear : s.year = y.toNat := by rw [hseq]
          have heyear : e.year = y.toNat := by rw [heeq]
          simp only [Date.le, Bool.or_eq_true, Bool.and_eq_true,
            decide_eq_true_eq, beq_iff_eq] at hb1 hb2
          have hyx : x.year = y.toNat := by omega
          rw [hyx]
          rw [hseq] at hsy
          exact hsy
        · simpa using hxw
      · cases h
    · cases h
  · cases h

theorem findFirstWeekday_from_first (y m w : Nat) (hw : w < 7)
    (hv : (⟨y, m, 1⟩ : Date).valid) :
    (findFirstWeekday ⟨y, m, 1⟩ w).valid ∧
      (findFirstWeekday ⟨y, m, 1⟩ w).weekday = w ∧
      (findFirstWeekday ⟨y, m, 1⟩ w).year = y ∧
      (findFirstWeekday ⟨y, m, 1⟩ w).month = m ∧
      1 ≤ (findFirstWeekday ⟨y, m, 1⟩ w).day ∧
      (findFirstWeekday ⟨y, m, 1⟩ w).day ≤ 7 := by
  have room : (⟨y, m, 1⟩ : Date).day + 7 ≤
      daysInMonth (⟨y, m, 1⟩ : Date).year (⟨y, m, 1⟩ : Date).month + 1 := by
    show 1 + 7 ≤ daysInMonth y m + 1
    have := daysInMonth_ge_28 y m
    omega
  obtain ⟨r1, r2, r3, r4, r5, r6⟩ :=
    findWeekdayAux_spec 7 (⟨y, m, 1⟩ : Date) hv room
      (exists_weekday_hit _ hw)
  have r5' : 1 ≤ (findWeekdayAux w 7 ⟨y, m, 1⟩).day := r5
  have r6' : (findWeekdayAux w 7 ⟨y, m, 1⟩).day + 1 ≤ 1 + 7 := r6
  exact ⟨r1, r2, r3, r4, r5', by
    show (findWeekdayAux w 7 (⟨y, m, 1⟩ : Date)).day ≤ 7
    omega⟩

theorem generate_first_friday_eq (d : EventDef) (y : Int)
    (hp : d.pattern = "first_friday")
    (h1 : ¬ y < d.start_year.getD 2015) (h2 : ¬ y > d.end_year.getD 2025)
    (h3 : y ∉ d.skip_years.getD []) (hy : 1 ≤ y ∧ y ≤ 9999) :
    generate_event_dates d y =
      some ((List.range 12).map (fun i =>
        findFirstWeekday ⟨y.toNat, i + 1, 1⟩ 4)) := by
  unfold generate_event_dates
  have hp1 : d.pattern ≠ "fixed_dates" := by rw [hp]; decide
  have hp2 : d.pattern ≠ "every_friday" := by rw [hp]; decide
  have hp3 : d.pattern ≠ "every_saturday" := by rw [hp]; decide
  rw [if_neg h1, if_neg h2, if_neg h3, if_neg hp1, if_neg hp2, if_neg hp3,
    if_pos hp, if_pos hy]

/-! ### Claim theorems -/

/-- C1: contrary to the spec, an unrecognized pattern tag is not a hard
configuration error.  `generate_event_dates` falls through every branch
and silently returns the empty list — for any definition with an unknown
pattern and any year, the result is `some []` (a normal, empty return;
no exception, no message). -/
theorem unknown_pattern_silently_ignored (d : EventDef) (y : Int)
    (h1 : d.pattern ≠ "fixed_dates") (h2 : d.pattern ≠ "every_friday")
    (h3 : d.pattern ≠ "every_saturday") (h4 : d.pattern ≠ "first_friday") :
    generate_event_dates d y = some [] := by
  unfold generate_event_dates
  split_ifs <;> rfl

/-- Witness: a definition with pattern `"mystery_pattern"` is silently
expanded to the empty list in year 2020 — the failing input for C1. -/
theorem unknown_pattern_silently_ignored_witness :
    generate_event_dates
      { name := "Mystery Event", type_ := "festival",
        pattern := "mystery_pattern", boost := 0.5 } 2020 = some [] :=
  unknown_pattern_silently_ignored _ 2020 (by decide) (by decide)
    (by decide) (by decide)

/-- C2: for every definition and every year below the (defaulted) active
start, above the active end, or in the skip set, expansion returns the
empty list and raises no exception. -/
theorem expand_empty_for_inactive_year (d : EventDef) (y : Int)
    (h : y < d.start_year.getD 2015 ∨ d.end_year.getD 2025 < y ∨
      y ∈ d.skip_years.getD []) :
    generate_event_dates d y = some [] := by
  unfold generate_event_dates
  by_cases h1 : y < d.start_year.getD 2015
  · rw [if_pos h1]
  · by_cases h2 : y > d.end_year.getD 2025
    · rw [if_neg h1, if_pos h2]
    · have h3 : y ∈ d.skip_years.getD [] := by
        rcases h with h | h | h
        · omega
        · omega
        · exact h
      rw [if_neg h1, if_neg h2, if_pos h3]

/-- Witness for C2 at a concrete inactive year (2010 < 2015). -/
theorem expand_empty_for_inactive_year_witness :
    generate_event_dates
      { name := "E", type_ := "music", pattern := "every_friday",
        start_year := some 2015, boost := 0.4 } 2010 = some [] :=
  expand_empty_for_inactive_year _ 2010 (Or.inl (by decide))

/-- C3: a FixedDates definition expands, for a qualifying year, to one
entry per listed day whose (year, month, day) combination is a valid
calendar date — invalid combinations are silently dropped, never raised —
and in particular month 4 with day list [31] yields the empty list for
every qualifying year. -/
theorem fixed_dates_skips_invalid :
    (∀ (d : EventDef) (y : Int) (m : Nat) (days : List Nat),
      d.pattern = "fixed_dates" → d.typical_month = some m →
      d.typical_days = some days →
      ¬ y < d.start_year.getD 2015 → ¬ y > d.end_year.getD 2025 →
      y ∉ d.skip_years.getD [] →
      generate_event_dates d y =
        some ((days.filter (fun day => decide (isValidYMD y m day))).map
          (fun day => (⟨y.toNat, m, day⟩ : Date)))) ∧
    (∀ (d : EventDef) (y : Int),
      d.pattern = "fixed_dates" → d.typical_month = some 4 →
      d.typical_days = some [31] →
      ¬ y < d.start_year.getD 2015 → ¬ y > d.end_year.getD 2025 →
      y ∉ d.skip_years.getD [] →
      generate_event_dates d y = some []) := by
  constructor
  · intro d y m days hp hm hd h1 h2 h3
    exact generate_fixed_dates_eq d y m days hp hm hd h1 h2 h3
  · intro d y hp hm hd h1 h2 h3
    rw [generate_fixed_dates_eq d y 4 [31] hp hm hd h1 h2 h3]
    have hdim : daysInMonth y.toNat 4 = 30 := by simp [daysInMonth]
    have hinv : ¬ isValidYMD y 4 31 := by
      rintro ⟨_, _, _, _, _, h31⟩
      rw [hdim] at h31
      omega
    simp [hinv]

/-- Witness for C3: the April-31 definition expands to the empty list in
2024 (a leap year, still only 30 days in April), with no exception. -/
theorem fixed_dates_skips_invalid_witness :
    generate_event_dates
      { name := "April31", type_ := "civic", pattern := "fixed_dates",
        typical_month := some 4, typical_days := some [31],
        boost := 0.1 } 2024 = some [] :=
  fixed_dates_skips_invalid.2 _ 2024 rfl rfl rfl (by decide) (by decide)
    (by decide)

/-- C7: every date produced by a successful expansion carries exactly the
requested year, and that year lies within the (defaulted) active range
and outside the skip set. -/
theorem expanded_dates_have_requested_year (d : EventDef) (y : Int)
    (ds : List Date) (hgen : generate_event_dates d y = some ds)
    (x : Date) (hx : x ∈ ds) :
    (x.year : Int) = y ∧ d.start_year.getD 2015 ≤ y ∧
      y ≤ d.end_year.getD 2025 ∧ y ∉ d.skip_years.getD [] := by
  unfold generate_event_dates at hgen
  by_cases h1 : y < d.start_year.getD 2015
  · rw [if_pos h1] at hgen; cases hgen; simp at hx
  rw [if_neg h1] at hgen
  by_cases h2 : y > d.end_year.getD 2025
  · rw [if_pos h2] at hgen; cases hgen; simp at hx
  rw [if_neg h2] at hgen
  by_cases h3 : y ∈ d.skip_years.getD []
  · rw [if_pos h3] at hgen; cases hgen; simp at hx
  rw [if_neg h3] at hgen
  have hmain : (x.year : Int) = y := by
    by_cases p1 : d.pattern = "fixed_dates"
    · rw [if_pos p1] at hgen
      split at hgen
      · cases hgen
        obtain ⟨day, hday, hmk⟩ := List.mem_filterMap.mp hx
        exact (mkDate_some hmk).2.2
      · cases hgen
    · rw [if_neg p1] at hgen
      by_cases p2 : d.pattern = "every_friday"
      · rw [if_pos p2] at hgen
        exact (weeklyDates_mem hgen hx).1
      rw [if_neg p2] at hgen
      by_cases p3 : d.pattern = "every_saturday"
      · rw [if_pos p3] at hgen
        exact (weeklyDates_mem hgen hx).1
      rw [if_neg p3] at hgen
      by_cases p4 : d.pattern = "first_friday"
      · rw [if_pos p4] at hgen
        by_cases hy : 1 ≤ y ∧ y ≤ 9999
        · rw [if_pos hy] at hgen
          cases hgen
          obtain ⟨i, hi, hfx⟩ := List.mem_map.mp hx
          have hi12 : i < 12 := List.mem_range.mp hi
          have hv : (⟨y.toNat, i + 1, 1⟩ : Date).valid := by
            refine ⟨?_, ?_, ?_, ?_, ?_, ?_⟩
            · show 1 ≤ y.toNat; omega
            · show y.toNat ≤ 9999; omega
            · show 1 ≤ i + 1; omega
            · show i + 1 ≤ 12; omega
            · show 1 ≤ (1 : Nat); omega
            · show (1 : Nat) ≤ daysInMonth y.toNat (i + 1)
              exact daysInMonth_pos _ _
          obtain ⟨_, _, hyr, _, _, _⟩ :=
            findFirstWeekday_from_first y.toNat (i + 1) 4 (by omega) hv
          rw [hfx] at hyr
          rw [hyr]
          omega
        · rw [if_neg hy] at hgen; cases hgen
      · rw [if_neg p4] at hgen; cases hgen; simp at hx
  exact ⟨hmain, by omega, by omega, h3⟩

/-- Witness for C7 on a concrete fixed-date definition and year. -/
theorem expanded_dates_have_requested_year_witness :
    ((((⟨2025, 7, 4⟩ : Date).year : Int)) = 2025) ∧
      independenceDef.start_year.getD 2015 ≤ 2025 ∧
      (2025 : Int) ≤ independenceDef.end_year.getD 2025 ∧
      (2025 : Int) ∉ independenceDef.skip_years.getD [] :=
  expanded_dates_have_requested_year independenceDef 2025 [⟨2025, 7, 4⟩]
    (by decide) _ (by decide)

/-- C5: a FirstWeekdayOfMonth (`first_friday`) definition expands, for a
qualifying in-range year, to exactly twelve dates, one per month in
ascending month order, each the earliest day of its month falling on the
target weekday (hence with day-of-month at most 7). -/
theorem first_friday_twelve_months (d : EventDef) (y : Int)
    (hp : d.pattern = "first_friday") (hy : 1 ≤ y ∧ y ≤ 9999)
    (h1 : ¬ y < d.start_year.getD 2015) (h2 : ¬ y > d.end_year.getD 2025)
    (h3 : y ∉ d.skip_years.getD []) :
    ∃ ds, generate_event_dates d y = some ds ∧ ds.length = 12 ∧
      ∀ i, (hi : i < ds.length) →
        (ds.get ⟨i, hi⟩).valid ∧ (ds.get ⟨i, hi⟩).year = y.toNat ∧
        (ds.get ⟨i, hi⟩).month = i + 1 ∧ (ds.get ⟨i, hi⟩).weekday = 4 ∧
        (ds.get ⟨i, hi⟩).day ≤ 7 ∧
        ∀ x : Date, x.valid → x.year = y.toNat → x.month = i + 1 →
          x.weekday = 4 → (ds.get ⟨i, hi⟩).day ≤ x.day := by
  refine ⟨_, generate_first_friday_eq d y hp h1 h2 h3 hy, by simp, ?_⟩
  intro i hi
  have hi12 : i < 12 := by simpa using hi
  have hget : ((List.range 12).map (fun i =>
      findFirstWeekday ⟨y.toNat, i + 1, 1⟩ 4)).get ⟨i, hi⟩ =
      findFirstWeekday ⟨y.toNat, i + 1, 1⟩ 4 := by
    simp
  rw [hget]
  have hv : (⟨y.toNat, i + 1, 1⟩ : Date).valid := by
    refine ⟨?_, ?_, ?_, ?_, ?_, ?_⟩
    · show 1 ≤ y.toNat; omega
    · show y.toNat ≤ 9999; omega
    · show 1 ≤ i + 1; omega
    · show i + 1 ≤ 12; omega
    · show 1 ≤ (1 : Nat); omega
    · show (1 : Nat) ≤ daysInMonth y.toNat (i + 1)
      exact daysInMonth_pos _ _
  obtain ⟨r1, r2, r3, r4, r5, r6⟩ :=
    findFirstWeekday_from_first y.toNat (i + 1) 4 (by omega) hv
  refine ⟨r1, r3, r4, r2, r6, ?_⟩
  intro x hxv hxy hxm hxw
  have hmod := weekday_day_mod (a := findFirstWeekday ⟨y.toNat, i + 1, 1⟩ 4)
    (b := x) (by rw [r3, hxy]) (by rw [r4, hxm]) (by rw [r2, hxw])
  obtain ⟨_, _, _, _, hx5, _⟩ := hxv
  omega

/-- Witness for C5: a concrete first-Friday table entry in 2025. -/
theorem first_friday_twelve_months_witness :
    ∃ ds, generate_event_dates firstFridaysDef 2025 = some ds ∧
      ds.length = 12 ∧
      ∀ i, (hi : i < ds.length) →
        (ds.get ⟨i, hi⟩).valid ∧ (ds.get ⟨i, hi⟩).year = (2025 : Int).toNat ∧
        (ds.get ⟨i, hi⟩).month = i + 1 ∧ (ds.get ⟨i, hi⟩).weekday = 4 ∧
        (ds.get ⟨i, hi⟩).day ≤ 7 ∧
        ∀ x : Date, x.valid → x.year = (2025 : Int).toNat → x.month = i + 1 →
          x.weekday = 4 → (ds.get ⟨i, hi⟩).day ≤ x.day :=
  first_friday_twelve_months firstFridaysDef 2025 rfl (by decide)
    (by decide) (by decide) (by decide)

/-- C9: the forward scan for the first target weekday of a month, started
at day 1, terminates within seven probes (six one-day increments) — fuel
beyond 7 never changes the result, so the source's unbounded while-loop
is total and equals the fuelled `findFirstWeekday` — and the found date
stays in the starting month with day-of-month at most 7. -/
theorem first_weekday_scan_terminates (y m w : Nat) (hw : w < 7)
    (hv : (⟨y, m, 1⟩ : Date).valid) :
    (∀ j : Nat, findWeekdayAux w (7 + j) ⟨y, m, 1⟩ =
      findFirstWeekday ⟨y, m, 1⟩ w) ∧
    (findFirstWeekday ⟨y, m, 1⟩ w).year = y ∧
    (findFirstWeekday ⟨y, m, 1⟩ w).month = m ∧
    (findFirstWeekday ⟨y, m, 1⟩ w).day ≤ 7 ∧
    (findFirstWeekday ⟨y, m, 1⟩ w).weekday = w := by
  have room : (⟨y, m, 1⟩ : Date).day + 7 ≤
      daysInMonth (⟨y, m, 1⟩ : Date).year (⟨y, m, 1⟩ : Date).month + 1 := by
    show 1 + 7 ≤ daysInMonth y m + 1
    have := daysInMonth_ge_28 y m
    omega
  constructor
  · intro j
    have h7j : 7 + j = 7 + j := rfl
    have := findWeekdayAux_fuel (w := w) 7 j (⟨y, m, 1⟩ : Date) hv room
      (exists_weekday_hit _ hw)
    exact this
  · obtain ⟨r1, r2, r3, r4, r5, r6⟩ :=
      findFirstWeekday_from_first y m w hw hv
    exact ⟨r3, r4, r6, r2⟩

/-- Witness for C9: January 2025, Friday. -/
theorem first_weekday_scan_terminates_witness :
    (∀ j : Nat, findWeekdayAux 4 (7 + j) ⟨2025, 1, 1⟩ =
      findFirstWeekday ⟨2025, 1, 1⟩ 4) ∧
    (findFirstWeekday ⟨2025, 1, 1⟩ 4).year = 2025 ∧
    (findFirstWeekday ⟨2025, 1, 1⟩ 4).month = 1 ∧
    (findFirstWeekday ⟨2025, 1, 1⟩ 4).day ≤ 7 ∧
    (findFirstWeekday ⟨2025, 1, 1⟩ 4).weekday = 4 :=
  first_weekday_scan_terminates 2025 1 4 (by decide) (by decide)

/-- Counterexample to C4 as stated: a weekly definition whose season is
nonempty, whose endpoints are both constructible, and whose season end is
`date.max` = 9999-12-31, at the qualifying year 9999.  The source loop
executes its body at `d == end` and then raises `OverflowError` on
`d += timedelta(days=1)`, so the expansion raises (`none`) instead of
emitting the matching weekdays that the claim promises. -/
theorem weekly_pattern_overflow_counterexample :
    generate_event_dates maxSeasonDef 9999 = none ∧
      mkDate 9999 12 25 = some ⟨9999, 12, 25⟩ ∧
      mkDate 9999 12 31 = some ⟨9999, 12, 31⟩ ∧
      (⟨9999, 12, 25⟩ : Date).le ⟨9999, 12, 31⟩ = true := by
  refine ⟨?_, by decide, by decide, by decide⟩
  decide

/-- C4 (amended): a weekly (`every_friday` / `every_saturday`) definition
expands, for a qualifying year with both season endpoints constructible
and the season end short of `date.max` = 9999-12-31 (where the date
increment would overflow), to exactly the valid dates between the season
start and end (inclusive) whose weekday matches, in strictly ascending
order; an inverted season (end before start) yields the empty list with
no error. -/
theorem weekly_pattern_exact (d : EventDef) (y : Int) (w : Nat)
    {sm sd em ed : Nat} {s e : Date}
    (hp : (d.pattern = "every_friday" ∧ w = 4) ∨
      (d.pattern = "every_saturday" ∧ w = 5))
    (hsm : d.season_start_month = some sm)
    (hsd2 : d.season_start_day = some sd)
    (hem : d.season_end_month = some em)
    (hed : d.season_end_day = some ed)
    (hs : mkDate y sm sd = some s) (he : mkDate y em ed = some e)
    (hne : e ≠ ⟨9999, 12, 31⟩)
    (h1 : ¬ y < d.start_year.getD 2015) (h2 : ¬ y > d.end_year.getD 2025)
    (h3 : y ∉ d.skip_years.getD []) :
    ∃ ds, generate_event_dates d y = some ds ∧
      (∀ x : Date, x ∈ ds ↔
        (x.valid ∧ s.le x = true ∧ x.le e = true ∧ x.weekday = w)) ∧
      ds.Pairwise (fun a b => a.lt b = true) ∧
      (e.lt s = true → ds = []) := by
  have hsv : s.valid := (mkDate_some hs).2.1
  have hev : e.valid := (mkDate_some he).2.1
  obtain ⟨r, hr⟩ :=
    dateRangeAux_isSome hev hne (e.toOrdinal + 1 - s.toOrdinal) s
  have hr' : dateRange s e = some r := hr
  have hgen : generate_event_dates d y =
      some (r.filter (fun x => x.weekday == w)) := by
    unfold generate_event_dates
    rw [if_neg h1, if_neg h2, if_neg h3]
    rcases hp with ⟨hp, rfl⟩ | ⟨hp, rfl⟩
    · have p1 : d.pattern ≠ "fixed_dates" := by rw [hp]; decide
      rw [if_neg p1, if_pos hp]
      exact weeklyDates_eq d y 4 hsm hsd2 hem hed hs he hr'
    · have p1 : d.pattern ≠ "fixed_dates" := by rw [hp]; decide
      have p2 : d.pattern ≠ "every_friday" := by rw [hp]; decide
      rw [if_neg p1, if_neg p2, if_pos hp]
      exact weeklyDates_eq d y 5 hsm hsd2 hem hed hs he hr'
  refine ⟨_, hgen, ?_, ?_, ?_⟩
  · intro x
    rw [List.mem_filter]
    rw [mem_dateRange_iff hsv hev hr' x]
    constructor
    · rintro ⟨⟨a, b, c⟩, hwk⟩
      exact ⟨a, b, c, by simpa using hwk⟩
    · rintro ⟨a, b, c, hwk⟩
      exact ⟨⟨a, b, c⟩, by simpa using hwk⟩
  · exact (dateRangeAux_pairwise _ s r hr).filter _
  · intro hlt
    have hord := toOrdinal_lt_of_lt hev hsv hlt
    have hfuel : e.toOrdinal + 1 - s.toOrdinal = 0 := by omega
    have hnil : dateRange s e = some [] := by
      unfold dateRange
      rw [hfuel]
      rfl
    have hre : r = [] := by
      have h0 : some r = some [] := hr'.symm.trans hnil
      cases h0
      rfl
    rw [hre]
    rfl

/-- Witness for the amended C4: Fridays After Five in 2025
(season April 18 – September 5). -/
theorem weekly_pattern_exact_witness :
    ∃ ds, generate_event_dates fridaysDef 2025 = some ds ∧
      (∀ x : Date, x ∈ ds ↔
        (x.valid ∧ (⟨2025, 4, 18⟩ : Date).le x = true ∧
          x.le ⟨2025, 9, 5⟩ = true ∧ x.weekday = 4)) ∧
      ds.Pairwise (fun a b => a.lt b = true) ∧
      ((⟨2025, 9, 5⟩ : Date).lt ⟨2025, 4, 18⟩ = true → ds = []) :=
  weekly_pattern_exact fridaysDef 2025 4 (Or.inl ⟨rfl, rfl⟩) rfl rfl rfl
    rfl (by decide) (by decide) (by decide) (by decide) (by decide)
    (by decide)

theorem entryLE_trans (a b c : CalendarEntry) (h1 : entryLE a b = true)
    (h2 : entryLE b c = true) : entryLE a c = true :=
  strLE_trans h1 h2

theorem entryLE_total (a b : CalendarEntry) :
    (entryLE a b || entryLE b a) = true :=
  strLE_total a.date b.date

/-- C6: the full calendar is exactly the generation-ordered concatenation
of the per-(definition, year) expansions, stably sorted by the ISO date
string: the sorted output is a permutation of the concatenation, adjacent
entries have non-decreasing dates, and entries sharing a date keep their
relative generation order (equal-date subsequences are unchanged). -/
theorem build_calendar_sorted_stable (defs : List EventDef) (sy ey : Int)
    (entries cal : List CalendarEntry)
    (hent : build_entries defs sy ey = some entries)
    (hcal : build_full_calendar_over defs sy ey = some cal) :
    cal.Perm entries ∧
      cal.Chain' (fun a b => strLE a.date b.date = true) ∧
      ∀ sKey : String, cal.filter (fun x => x.date == sKey) =
        entries.filter (fun x => x.date == sKey) := by
  have hcal' : cal = entries.mergeSort entryLE := by
    unfold build_full_calendar_over at hcal
    rw [hent] at hcal
    have hcal2 : some (entries.mergeSort entryLE) = some cal := hcal
    exact (Option.some_inj.mp hcal2).symm
  subst hcal'
  refine ⟨List.mergeSort_perm entries entryLE, ?_, ?_⟩
  · exact (List.sorted_mergeSort entryLE_trans entryLE_total entries).chain'
  · intro sKey
    have hmemB : ∀ x ∈ entries.filter (fun x => x.date == sKey),
        x.date = sKey := by
      intro x hx
      have := (List.mem_filter.mp hx).2
      simpa using this
    have hpair : (entries.filter (fun x => x.date == sKey)).Pairwise
        (fun a b => entryLE a b = true) := by
      apply List.pairwise_of_forall_mem_list
      intro a ha b hb
      have ha' := hmemB a ha
      have hb' := hmemB b hb
      unfold entryLE
      rw [ha', hb']
      exact strLE_refl sKey
    have hsub : (entries.filter (fun x => x.date == sKey)).Sublist
        (entries.mergeSort entryLE) :=
      List.sublist_mergeSort entryLE_trans entryLE_total hpair
        (List.filter_sublist entries)
    have hBf : (entries.filter (fun x => x.date == sKey)).filter
        (fun x => x.date == sKey) =
        entries.filter (fun x => x.date == sKey) :=
      List.filter_eq_self.mpr (fun a ha => by
        have := hmemB a ha
        simpa using this)
    have hsub2 : (entries.filter (fun x => x.date == sKey)).Sublist
        ((entries.mergeSort entryLE).filter (fun x => x.date == sKey)) := by
      have := hsub.filter (fun x => x.date == sKey)
      rwa [hBf] at this
    have hperm : ((entries.mergeSort entryLE).filter
        (fun x => x.date == sKey)).Perm
        (entries.filter (fun x => x.date == sKey)) :=
      (List.mergeSort_perm entries entryLE).filter _
    exact (List.Sublist.eq_of_length hsub2 hperm.length_eq.symm).symm

/-- Witness for C6 on a one-definition table over a single year. -/
theorem build_calendar_sorted_stable_witness :
    (([july4Entry] : List CalendarEntry).mergeSort entryLE).Perm
        [july4Entry] ∧
      (([july4Entry] : List CalendarEntry).mergeSort entryLE).Chain'
        (fun a b => strLE a.date b.date = true) ∧
      ∀ sKey : String,
        (([july4Entry] : List CalendarEntry).mergeSort entryLE).filter
            (fun x => x.date == sKey) =
          ([july4Entry] : List CalendarEntry).filter
            (fun x => x.date == sKey) := by
  have h1 : build_entries smallTable 2025 2025 = some [july4Entry] := rfl
  exact build_calendar_sorted_stable smallTable 2025 2025 [july4Entry] _
    h1 (by unfold build_full_calendar_over; rw [h1]; rfl)

/-- C10: optional definition keys default rather than error: a missing
`skip_years` behaves as the empty skip list and missing
`start_year`/`end_year` behave as 2015/2025; in every constructed
calendar entry all seven fields are populated, a missing description,
location, or source being replaced by the empty string, "Downtown Mall",
or "curated" respectively. -/
theorem optional_fields_defaulted :
    (∀ (d : EventDef) (y : Int), d.skip_years = none →
      generate_event_dates d y =
        generate_event_dates { d with skip_years := some [] } y) ∧
    (∀ (d : EventDef) (y : Int), d.start_year = none →
      generate_event_dates d y =
        generate_event_dates { d with start_year := some 2015 } y) ∧
    (∀ (d : EventDef) (y : Int), d.end_year = none →
      generate_event_dates d y =
        generate_event_dates { d with end_year := some 2025 } y) ∧
    (∀ (d : EventDef) (dt : Date),
      (mkEntry d dt).date = dt.iso ∧ (mkEntry d dt).name = d.name ∧
      (mkEntry d dt).type_ = d.type_ ∧ (mkEntry d dt).boost = d.boost ∧
      (d.description = none → (mkEntry d dt).description = "") ∧
      (d.location = none → (mkEntry d dt).location = "Downtown Mall") ∧
      (d.source = none → (mkEntry d dt).source = "curated")) := by
  refine ⟨?_, ?_, ?_, ?_⟩
  · intro d y h
    obtain ⟨n, t, de, so, p, tm, td, ssm, ssd, sem, sed, sy0, ey0, sk, b,
      ti, lo⟩ := d
    have h' : sk = none := h
    subst h'
    rfl
  · intro d y h
    obtain ⟨n, t, de, so, p, tm, td, ssm, ssd, sem, sed, sy0, ey0, sk, b,
      ti, lo⟩ := d
    have h' : sy0 = none := h
    subst h'
    rfl
  · intro d y h
    obtain ⟨n, t, de, so, p, tm, td, ssm, ssd, sem, sed, sy0, ey0, sk, b,
      ti, lo⟩ := d
    have h' : ey0 = none := h
    subst h'
    rfl
  · intro d dt
    refine ⟨rfl, rfl, rfl, rfl, ?_, ?_, ?_⟩
    · intro h; unfold mkEntry; rw [h]; rfl
    · intro h; unfold mkEntry; rw [h]; rfl
    · intro h; unfold mkEntry; rw [h]; rfl

/-- Witness for C10 on a definition that omits every optional key. -/
theorem optional_fields_defaulted_witness :
    (generate_event_dates bareDef 2022 =
      generate_event_dates { bareDef with skip_years := some [] } 2022) ∧
    (generate_event_dates bareDef 2022 =
      generate_event_dates { bareDef with start_year := some 2015 } 2022) ∧
    (generate_event_dates bareDef 2022 =
      generate_event_dates { bareDef with end_year := some 2025 } 2022) ∧
    (mkEntry bareDef ⟨2022, 6, 19⟩).description = "" ∧
    (mkEntry bareDef ⟨2022, 6, 19⟩).location = "Downtown Mall" ∧
    (mkEntry bareDef ⟨2022, 6, 19⟩).source = "curated" :=
  ⟨optional_fields_defaulted.1 bareDef 2022 rfl,
    optional_fields_defaulted.2.1 bareDef 2022 rfl,
    optional_fields_defaulted.2.2.1 bareDef 2022 rfl,
    (optional_fields_defaulted.2.2.2 bareDef ⟨2022, 6, 19⟩).2.2.2.2.1 rfl,
    (optional_fields_defaulted.2.2.2 bareDef ⟨2022, 6, 19⟩).2.2.2.2.2.1 rfl,
    (optional_fields_defaulted.2.2.2 bareDef ⟨2022, 6, 19⟩).2.2.2.2.2.2 rfl⟩

/-! ### The compact visualization projection (C8) -/

theorem viz_base (d : EventDef) :
    (build_viz_entry d).name = d.name ∧
      (build_viz_entry d).type_ = d.type_ ∧
      (build_viz_entry d).boost = d.boost ∧
      (build_viz_entry d).desc = d.description.getD "" :=
  ⟨rfl, rfl, rfl, rfl⟩

theorem viz_endYear (d : EventDef) :
    (build_viz_entry d).endYear =
      (match d.end_year with
        | some n => if n ≠ 0 ∧ n < 2025 then some n else none
        | none => none) := rfl

theorem viz_skipYears (d : EventDef) :
    (build_viz_entry d).skipYears =
      (match d.skip_years with
        | some l => if l ≠ [] then some l else none
        | none => none) := rfl

theorem viz_pattern_fixed (d : EventDef) (hp : d.pattern = "fixed_dates") :
    (build_viz_entry d).recurring = none ∧
      (build_viz_entry d).month = d.typical_month ∧
      (build_viz_entry d).days = d.typical_days ∧
      (build_viz_entry d).startMonth = none ∧
      (build_viz_entry d).startDay = none ∧
      (build_viz_entry d).endMonth = none ∧
      (build_viz_entry d).endDay = none := by
  have h1 : d.pattern ≠ "every_friday" := by rw [hp]; decide
  have h2 : d.pattern ≠ "every_saturday" := by rw [hp]; decide
  have h3 : d.pattern ≠ "first_friday" := by rw [hp]; decide
  have h12 : ¬ (d.pattern = "every_friday" ∨ d.pattern = "every_saturday") :=
    not_or.mpr ⟨h1, h2⟩
  refine ⟨?_, ?_, ?_, ?_, ?_, ?_, ?_⟩
  · show (if d.pattern = "every_friday" then some "friday"
      else if d.pattern = "every_saturday" then some "saturday"
      else if d.pattern = "first_friday" then some "first_friday"
      else none) = none
    rw [if_neg h1, if_neg h2, if_neg h3]
  · show (if d.pattern = "fixed_dates" then d.typical_month else none) =
      d.typical_month
    rw [if_pos hp]
  · show (if d.pattern = "fixed_dates" then d.typical_days else none) =
      d.typical_days
    rw [if_pos hp]
  all_goals
    show (if d.pattern = "every_friday" ∨ d.pattern = "every_saturday"
      then _ else none) = none
  all_goals rw [if_neg h12]

theorem viz_pattern_friday (d : EventDef)
    (hp : d.pattern = "every_friday") :
    (build_viz_entry d).recurring = some "friday" ∧
      (build_viz_entry d).startMonth = d.season_start_month ∧
      (build_viz_entry d).startDay = d.season_start_day ∧
      (build_viz_entry d).endMonth = d.season_end_month ∧
      (build_viz_entry d).endDay = d.season_end_day ∧
      (build_viz_entry d).month = none ∧
      (build_viz_entry d).days = none := by
  have h12 : d.pattern = "every_friday" ∨ d.pattern = "every_saturday" :=
    Or.inl hp
  have hfx : d.pattern ≠ "fixed_dates" := by rw [hp]; decide
  refine ⟨?_, ?_, ?_, ?_, ?_, ?_, ?_⟩
  · show (if d.pattern = "every_friday" then some "friday"
      else if d.pattern = "every_saturday" then some "saturday"
      else if d.pattern = "first_friday" then some "first_friday"
      else none) = some "friday"
    rw [if_pos hp]
  · exact if_pos h12
  · exact if_pos h12
  · exact if_pos h12
  · exact if_pos h12
  · exact if_neg hfx
  · exact if_neg hfx

theorem viz_pattern_saturday (d : EventDef)
    (hp : d.pattern = "every_saturday") :
    (build_viz_entry d).recurring = some "saturday" ∧
      (build_viz_entry d).startMonth = d.season_start_month ∧
      (build_viz_entry d).startDay = d.season_start_day ∧
      (build_viz_entry d).endMonth = d.season_end_month ∧
      (build_viz_entry d).endDay = d.season_end_day ∧
      (build_viz_entry d).month = none ∧
      (build_viz_entry d).days = none := by
  have h1 : d.pattern ≠ "every_friday" := by rw [hp]; decide
  have h12 : d.pattern = "every_friday" ∨ d.pattern = "every_saturday" :=
    Or.inr hp
  have hfx : d.pattern ≠ "fixed_dates" := by rw [hp]; decide
  refine ⟨?_, ?_, ?_, ?_, ?_, ?_, ?_⟩
  · show (if d.pattern = "every_friday" then some "friday"
      else if d.pattern = "every_saturday" then some "saturday"
      else if d.pattern = "first_friday" then some "first_friday"
      else none) = some "saturday"
    rw [if_neg h1, if_pos hp]
  · exact if_pos h12
  · exact if_pos h12
  · exact if_pos h12
  · exact if_pos h12
  · exact if_neg hfx
  · exact if_neg hfx

theorem viz_pattern_first_friday (d : EventDef)
    (hp : d.pattern = "first_friday") :
    (build_viz_entry d).recurring = some "first_friday" ∧
      (build_viz_entry d).startMonth = none ∧
      (build_viz_entry d).startDay = none ∧
      (build_viz_entry d).endMonth = none ∧
      (build_viz_entry d).endDay = none ∧
      (build_viz_entry d).month = none ∧
      (build_viz_entry d).days = none := by
  have h1 : d.pattern ≠ "every_friday" := by rw [hp]; decide
  have h2 : d.pattern ≠ "every_saturday" := by rw [hp]; decide
  have h12 : ¬ (d.pattern = "every_friday" ∨ d.pattern = "every_saturday") :=
    not_or.mpr ⟨h1, h2⟩
  have hfx : d.pattern ≠ "fixed_dates" := by rw [hp]; decide
  refine ⟨?_, ?_, ?_, ?_, ?_, ?_, ?_⟩
  · show (if d.pattern = "every_friday" then some "friday"
      else if d.pattern = "every_saturday" then some "saturday"
      else if d.pattern = "first_friday" then some "first_friday"
      else none) = some "first_friday"
    rw [if_neg h1, if_neg h2, if_pos hp]
  · exact if_neg h12
  · exact if_neg h12
  · exact if_neg h12
  · exact if_neg h12
  · exact if_neg hfx
  · exact if_neg hfx

/-- Any date produced by `generate_event_dates` for a definition whose
effective end year does not exceed 2025 (true of every table row) is
reproduced by the client-side reconstruction from the compact
projection. -/
theorem generate_subset_viz (d : EventDef)
    (hEnd : d.end_year.getD 2025 ≤ 2025) (y : Int) (ds : List Date)
    (hgen : generate_event_dates d y = some ds) (x : Date)
    (hx : x ∈ ds) : x ∈ vizDatesSpec (build_viz_entry d) y := by
  unfold generate_event_dates at hgen
  by_cases h1 : y < d.start_year.getD 2015
  · rw [if_pos h1] at hgen; cases hgen; simp at hx
  rw [if_neg h1] at hgen
  by_cases h2 : y > d.end_year.getD 2025
  · rw [if_pos h2] at hgen; cases hgen; simp at hx
  rw [if_neg h2] at hgen
  by_cases h3 : y ∈ d.skip_years.getD []
  · rw [if_pos h3] at hgen; cases hgen; simp at hx
  rw [if_neg h3] at hgen
  have hEndGate : ¬ y > (build_viz_entry d).endYear.getD 2025 := by
    rw [viz_endYear d]
    cases hey : d.end_year with
    | none => simp; omega
    | some n =>
      rw [hey] at hEnd h2
      simp only [Option.getD_some] at hEnd h2
      show ¬ y > ((if n ≠ 0 ∧ n < 2025 then some n else none).getD 2025)
      by_cases hn : n ≠ 0 ∧ n < 2025
      · rw [if_pos hn]; simp; omega
      · rw [if_neg hn]; simp; omega
  have hSkipGate : ¬ y ∈ (build_viz_entry d).skipYears.getD [] := by
    rw [viz_skipYears d]
    cases hsk : d.skip_years with
    | none => simp
    | some l =>
      rw [hsk] at h3
      simp only [Option.getD_some] at h3
      show ¬ y ∈ ((if l ≠ [] then some l else none).getD [])
      by_cases hl : l ≠ []
      · rw [if_pos hl]; simpa using h3
      · rw [if_neg hl]; simp
  unfold vizDatesSpec
  rw [if_neg hEndGate, if_neg hSkipGate]
  by_cases p1 : d.pattern = "fixed_dates"
  · obtain ⟨hr, hm, hd2, _, _, _, _⟩ := viz_pattern_fixed d p1
    rw [if_pos p1] at hgen
    rw [hr]
    split at hgen
    · rename_i m days hm' hd'
      cases hgen
      rw [hm, hd2, hm', hd']
      exact hx
    · cases hgen
  rw [if_neg p1] at hgen
  by_cases p2 : d.pattern = "every_friday"
  · obtain ⟨hr, hsm, hsd2, hem, hed, _, _⟩ := viz_pattern_friday d p2
    rw [if_pos p2] at hgen
    rw [hr]
    unfold weeklyDates at hgen
    split at hgen
    · rename_i sm sd em ed hsm' hsd' hem' hed'
      split at hgen
      · rename_i s e hs he
        split at hgen
        · rename_i rr hrr
          cases hgen
          simpa [hsm, hsd2, hem, hed, hsm', hsd', hem', hed', hs, he, hrr]
            using hx
        · cases hgen
      · cases hgen
    · cases hgen
  rw [if_neg p2] at hgen
  by_cases p3 : d.pattern = "every_saturday"
  · obtain ⟨hr, hsm, hsd2, hem, hed, _, _⟩ := viz_pattern_saturday d p3
    rw [if_pos p3] at hgen
    rw [hr]
    unfold weeklyDates at hgen
    split at hgen
    · rename_i sm sd em ed hsm' hsd' hem' hed'
      split at hgen
      · rename_i s e hs he
        split at hgen
        · rename_i rr hrr
          cases hgen
          simpa [hsm, hsd2, hem, hed, hsm', hsd', hem', hed', hs, he, hrr]
            using hx
        · cases hgen
      · cases hgen
    · cases hgen
  rw [if_neg p3] at hgen
  by_cases p4 : d.pattern = "first_friday"
  · obtain ⟨hr, _, _, _, _, _, _⟩ := viz_pattern_first_friday d p4
    rw [if_pos p4] at hgen
    rw [hr]
    by_cases hy : 1 ≤ y ∧ y ≤ 9999
    · rw [if_pos hy] at hgen
      cases hgen
      have hgoal : x ∈ (if 1 ≤ y ∧ y ≤ 9999 then
          (List.range 12).map (fun i =>
            findFirstWeekday ⟨y.toNat, i + 1, 1⟩ 4)
        else []) := by
        rw [if_pos hy]
        exact hx
      simpa using hgoal
    · rw [if_neg hy] at hgen; cases hgen
  rw [if_neg p4] at hgen
  cases hgen
  simp at hx

/-- C8: for every definition in the table, the compact projection carries
the name, type, boost and description plus exactly the pattern-specific
parameters of its pattern; it carries `endYear` exactly when the
effective end year differs from the full-range maximum 2025 and
`skipYears` exactly when the skip set is non-empty; and every date
`generate_event_dates` can produce for the definition is reproduced by
re-applying the same pattern rules to the projection's fields. -/
theorem viz_projection_faithful :
    ∀ d ∈ RECURRING_EVENTS,
      ((build_viz_entry d).name = d.name ∧
        (build_viz_entry d).type_ = d.type_ ∧
        (build_viz_entry d).boost = d.boost ∧
        (build_viz_entry d).desc = d.description.getD "") ∧
      (d.pattern = "fixed_dates" →
        (build_viz_entry d).recurring = none ∧
        (build_viz_entry d).month = d.typical_month ∧
        (build_viz_entry d).days = d.typical_days ∧
        (build_viz_entry d).startMonth = none ∧
        (build_viz_entry d).startDay = none ∧
        (build_viz_entry d).endMonth = none ∧
        (build_viz_entry d).endDay = none) ∧
      (d.pattern = "every_friday" →
        (build_viz_entry d).recurring = some "friday" ∧
        (build_viz_entry d).startMonth = d.season_start_month ∧
        (build_viz_entry d).startDay = d.season_start_day ∧
        (build_viz_entry d).endMonth = d.season_end_month ∧
        (build_viz_entry d).endDay = d.season_end_day ∧
        (build_viz_entry d).month = none ∧
        (build_viz_entry d).days = none) ∧
      (d.pattern = "every_saturday" →
        (build_viz_entry d).recurring = some "saturday" ∧
        (build_viz_entry d).startMonth = d.season_start_month ∧
        (build_viz_entry d).startDay = d.season_start_day ∧
        (build_viz_entry d).endMonth = d.season_end_month ∧
        (build_viz_entry d).endDay = d.season_end_day ∧
        (build_viz_entry d).month = none ∧
        (build_viz_entry d).days = none) ∧
      (d.pattern = "first_friday" →
        (build_viz_entry d).recurring = some "first_friday" ∧
        (build_viz_entry d).startMonth = none ∧
        (build_viz_entry d).startDay = none ∧
        (build_viz_entry d).endMonth = none ∧
        (build_viz_entry d).endDay = none ∧
        (build_viz_entry d).month = none ∧
        (build_viz_entry d).days = none) ∧
      ((build_viz_entry d).endYear ≠ none ↔ d.end_year.getD 2025 ≠ 2025) ∧
      ((build_viz_entry d).skipYears ≠ none ↔ d.skip_years.getD [] ≠ []) ∧
      (∀ (y : Int) (ds : List Date) (x : Date),
        generate_event_dates d y = some ds → x ∈ ds →
        x ∈ vizDatesSpec (build_viz_entry d) y) := by
  have htab : ∀ d ∈ RECURRING_EVENTS,
      ((build_viz_entry d).endYear ≠ none ↔
        d.end_year.getD 2025 ≠ 2025) ∧
      ((build_viz_entry d).skipYears ≠ none ↔
        d.skip_years.getD [] ≠ []) ∧
      d.end_year.getD 2025 ≤ 2025 := by decide
  intro d hd
  obtain ⟨hiff1, hiff2, hle⟩ := htab d hd
  exact ⟨viz_base d, viz_pattern_fixed d, viz_pattern_friday d,
    viz_pattern_saturday d, viz_pattern_first_friday d, hiff1, hiff2,
    fun y ds x hg hx => generate_subset_viz d hle y ds hg x hx⟩

/-- Witness for C8 at the Juneteenth table row (no skip set, default end
year, fixed-dates pattern). -/
theorem viz_projection_faithful_witness :
    ((build_viz_entry juneteenthDef).endYear ≠ none ↔
      juneteenthDef.end_year.getD 2025 ≠ 2025) ∧
      ((build_viz_entry juneteenthDef).skipYears ≠ none ↔
        juneteenthDef.skip_years.getD [] ≠ []) ∧
      (∀ (y : Int) (ds : List Date) (x : Date),
        generate_event_dates juneteenthDef y = some ds → x ∈ ds →
        x ∈ vizDatesSpec (build_viz_entry juneteenthDef) y) := by
  have hmem : juneteenthDef ∈ RECURRING_EVENTS := by
    unfold RECURRING_EVENTS juneteenthDef
    exact List.mem_cons_of_mem _ (List.mem_cons_of_mem _
      (List.mem_cons_of_mem _ (List.mem_cons_of_mem _
      (List.mem_cons_of_mem _ (List.mem_cons_of_mem _
      (List.mem_cons_of_mem _ (List.mem_cons_of_mem _
      (List.mem_cons_self _ _))))))))
  obtain ⟨_, _, _, _, _, h6, h7, h8⟩ :=
    viz_projection_faithful juneteenthDef hmem
  exact ⟨h6, h7, h8⟩

end FetchEvents
